import Mathlib

/-!
# Verification of the bet365 WebSocket parser / state manager

A shallow embedding of `src/bet365-ws/src/parser.ts` (TypeScript).
Strings are modelled as `List Char`; JavaScript numbers are modelled as
exact rationals extended with `NaN` and signed infinities (`JSNum`);
JavaScript `Map`s are modelled as insertion-ordered association lists.

Definitions follow the TypeScript source function by function and keep the
source names.  All definitions are executable so theorems about concrete
inputs can be settled by `decide`.
-/

namespace Bet365

set_option maxRecDepth 100000

/-- Strings are lists of characters (the embedding's string type). -/
abbrev Str := List Char

/-- Lift a Lean string literal into the model's string type. -/
def str (s : String) : Str := s.toList

-- ── JavaScript string primitives ──────────────────────────────────────────

/-- `p` is a prefix of `s` (JS `String.prototype.startsWith`). -/
def strHasPre : Str → Str → Bool
  | [], _ => true
  | _ :: _, [] => false
  | p :: ps, c :: cs => p == c && strHasPre ps cs

/-- `suf` is a suffix of `s` (JS `String.prototype.endsWith`). -/
def strHasSuf (suf s : Str) : Bool := strHasPre suf.reverse s.reverse

/-- `needle` occurs as a contiguous substring of `s` (JS `String.prototype.includes`). -/
def containsSub (needle : Str) : Str → Bool
  | [] => needle.isEmpty
  | c :: rest => strHasPre needle (c :: rest) || containsSub needle rest

/-- Index of the first occurrence of `needle` in `s` (JS `String.prototype.indexOf`),
`none` when absent. -/
def idxOfSub (needle : Str) : Str → Option Nat
  | [] => if needle.isEmpty then some 0 else none
  | c :: rest =>
    if strHasPre needle (c :: rest) then some 0
    else (idxOfSub needle rest).map (· + 1)

/-- Split on a single-character separator (JS `String.prototype.split` with a
one-character separator): `"a;;b"` on `';'` yields `["a", "", "b"]`, and the
empty string yields `[""]`. -/
def splitOnChar (c : Char) : Str → List Str
  | [] => [[]]
  | x :: xs =>
    let r := splitOnChar c xs
    if x = c then [] :: r
    else
      match r with
      | [] => [[x]]
      | h :: t => (x :: h) :: t

/-- The whitespace characters recognised by the JS `trim` / `parseInt` /
`parseFloat` functions (restricted to the ASCII ones; the protocol is ASCII). -/
def isWS (c : Char) : Bool :=
  c == ' ' || c == '\t' || c == '\n' || c == '\r' || c == '\x0b' || c == '\x0c'

/-- JS `String.prototype.trim`. -/
def trimStr (s : Str) : Str :=
  ((s.dropWhile isWS).reverse.dropWhile isWS).reverse

-- ── JavaScript numbers ────────────────────────────────────────────────────

/-- A JavaScript number, idealised: exact rationals plus `NaN` and the two
infinities (the source only ever divides and adds one, values stay exact). -/
inductive JSNum where
  | nan : JSNum
  | inf : Bool → JSNum       -- `true` = negative infinity
  | fin : ℚ → JSNum
deriving DecidableEq, Repr, Inhabited

/-- Rational addition written with `mkRat` so that the kernel can evaluate
it (the library's `Rat.add` is sealed against unfolding). -/
def ratAdd (a b : ℚ) : ℚ := mkRat (a.num * b.den + b.num * a.den) (a.den * b.den)

/-- Rational division written with `mkRat` (same reason as `ratAdd`). -/
def ratDiv (a b : ℚ) : ℚ :=
  if 0 ≤ b.num then mkRat (a.num * b.den) (a.den * b.num.toNat)
  else mkRat (-(a.num * b.den)) (a.den * (-b.num).toNat)

/-- Rational negation written with `mkRat`. -/
def ratNeg (a : ℚ) : ℚ := mkRat (-a.num) a.den

/-- The rational is zero (numerators of normalised rationals decide it). -/
def ratEqZero (a : ℚ) : Bool := a.num == 0

/-- The rational is negative. -/
def ratLtZero (a : ℚ) : Bool := a.num < 0

/-- JS falsiness of a number: `NaN` and `0` are falsy. -/
def JSNum.falsy : JSNum → Bool
  | JSNum.nan => true
  | JSNum.fin q => ratEqZero q
  | JSNum.inf _ => false

/-- JS division on numbers. -/
def JSNum.div : JSNum → JSNum → JSNum
  | JSNum.nan, _ => JSNum.nan
  | _, JSNum.nan => JSNum.nan
  | JSNum.inf _, JSNum.inf _ => JSNum.nan
  | JSNum.inf s, JSNum.fin q => JSNum.inf (s != ratLtZero q)
  | JSNum.fin _, JSNum.inf _ => JSNum.fin (mkRat 0 1)
  | JSNum.fin a, JSNum.fin b =>
    if ratEqZero b then
      (if ratEqZero a then JSNum.nan else JSNum.inf (ratLtZero a))
    else JSNum.fin (ratDiv a b)

/-- JS `x + 1` on numbers. -/
def JSNum.add1 : JSNum → JSNum
  | JSNum.nan => JSNum.nan
  | JSNum.inf s => JSNum.inf s
  | JSNum.fin q => JSNum.fin (ratAdd q (mkRat 1 1))

/-- Numeric value of a decimal digit character. -/
def digitVal (c : Char) : ℕ := c.toNat - '0'.toNat

/-- Value of a string of decimal digits. -/
def digitsToNat (ds : Str) : ℕ := ds.foldl (fun a c => 10 * a + digitVal c) 0

/-- Consume an optional leading sign: returns (isNegative, remainder).
Shared by the `parseInt` and `parseFloat` models. -/
def signSplit (t : Str) : Bool × Str :=
  match t with
  | '-' :: r => (true, r)
  | '+' :: r => (false, r)
  | r => (false, r)

/-- JS `parseInt(s, 10)`: skip whitespace, optional sign, longest digit
prefix; `none` models `NaN`. -/
def parseIntJS (s : Str) : Option Int :=
  let t := s.dropWhile isWS
  let sgn := signSplit t
  let ds := sgn.2.takeWhile Char.isDigit
  if ds.isEmpty then none
  else some (if sgn.1 then -(digitsToNat ds : Int) else (digitsToNat ds : Int))

/-- `parseInt(x, 10) || 0`: the `none` argument models a JS `undefined`
argument (which stringifies to a non-numeric and yields `NaN`). -/
def parseIntOr0 (s? : Option Str) : Int :=
  match s? with
  | none => 0
  | some s => (parseIntJS s).getD 0

/-- JS `parseFloat`: skip whitespace, optional sign, `Infinity` or a decimal
literal `digits [. digits] [e[±]digits]`; longest valid prefix, `NaN` when no
literal starts the string. -/
def parseFloatJS (s : Str) : JSNum :=
  let t := s.dropWhile isWS
  let sgn := signSplit t
  let neg := sgn.1
  let t2 := sgn.2
  if strHasPre (str "Infinity") t2 then JSNum.inf neg
  else
    let ipart := t2.takeWhile Char.isDigit
    let rest := t2.drop ipart.length
    let fp : Str × Str :=
      match rest with
      | '.' :: r => (r.takeWhile Char.isDigit, r.drop (r.takeWhile Char.isDigit).length)
      | r => ([], r)
    let fpart := fp.1
    if ipart.isEmpty && fpart.isEmpty then JSNum.nan
    else
      let expo : Int :=
        match fp.2 with
        | 'e' :: r | 'E' :: r =>
          let esgn := signSplit r
          let eds := esgn.2.takeWhile Char.isDigit
          if eds.isEmpty then 0
          else if esgn.1 then -(digitsToNat eds : Int) else (digitsToNat eds : Int)
        | _ => 0
      -- the exact value (ipart.fpart) × 10^expo as a single `mkRat`
      let ipfp : Nat := digitsToNat ipart * 10 ^ fpart.length + digitsToNat fpart
      let q : ℚ :=
        if expo < 0 then mkRat (Int.ofNat ipfp) (10 ^ fpart.length * 10 ^ (-expo).toNat)
        else mkRat (Int.ofNat (ipfp * 10 ^ expo.toNat)) (10 ^ fpart.length)
      JSNum.fin (if neg then ratNeg q else q)

-- ── JavaScript Map (insertion-ordered association list) ───────────────────

/-- `Map.prototype.get`. -/
def mapGet {α : Type} (m : List (Str × α)) (k : Str) : Option α :=
  (m.find? (fun p => p.1 == k)).map (·.2)

/-- `Map.prototype.set`: replace in place when the key exists, else append. -/
def mapSet {α : Type} (m : List (Str × α)) (k : Str) (v : α) : List (Str × α) :=
  match m with
  | [] => [(k, v)]
  | (k', v') :: rest => if k' = k then (k, v) :: rest else (k', v') :: mapSet rest k v

/-- `Map.prototype.delete`. -/
def mapDelete {α : Type} (m : List (Str × α)) (k : Str) : List (Str × α) :=
  m.filter (fun p => !(p.1 == k))

/-- `Map.prototype.values` as a list (insertion order). -/
def mapValues {α : Type} (m : List (Str × α)) : List α := m.map (·.2)

/-- The list of keys of a map (insertion order). -/
def mapKeys {α : Type} (m : List (Str × α)) : List Str := m.map (·.1)

-- ── Field parser (`parseFields`, `detectRecordType`) ──────────────────────

/-- A parsed field record: key/value pairs, later assignment wins
(a JS object used as a dictionary). -/
abbrev Fields := List (Str × Str)

/-- Look up a field (`fields[k]`); `none` models `undefined`. -/
def getField (fs : Fields) (k : Str) : Option Str :=
  (fs.find? (fun p => p.1 == k)).map (·.2)

/-- Assign a field (`fields[k] = v`): overwrite in place or append. -/
def setField (fs : Fields) (k v : Str) : Fields :=
  match fs with
  | [] => [(k, v)]
  | (k', v') :: rest => if k' = k then (k, v) :: rest else (k', v') :: setField rest k v

/-- JS truthy-or chain `x || d` on an optional string: a defined non-empty
string wins, otherwise the default. -/
def truthyD (x : Option Str) (d : Str) : Str :=
  match x with
  | some v => if v.isEmpty then d else v
  | none => d

/-- The reserved key used by the source for the record-type tag. -/
def typeKey : Str := str "_type"

/-- `parseFields`: split a record body on `;`; a part with `=` binds
key to value (split at the first `=`), a part without `=` is stored under
the `_type` sentinel.  Empty input yields the empty record. -/
def parseFields (raw : Str) : Fields :=
  if raw.isEmpty then []
  else
    (splitOnChar ';' raw).foldl
      (fun fs part =>
        if part.isEmpty then fs
        else
          match part.findIdx? (fun c => c == '=') with
          | none => setField fs typeKey part
          | some i => setField fs (part.take i) (part.drop (i + 1)))
      []

/-- Record-type tags. -/
inductive RecordType where
  | CL | CT | EV | MA | PA | MG | CG | unknown
deriving DecidableEq, Repr

/-- `detectRecordType`: read the `_type` sentinel and recognise the known
tags (a falsy, i.e. empty, tag is unknown). -/
def detectRecordType (fs : Fields) : RecordType :=
  match getField fs typeKey with
  | none => RecordType.unknown
  | some t =>
    if t.isEmpty then RecordType.unknown
    else if t = str "CL" then RecordType.CL
    else if t = str "CT" then RecordType.CT
    else if t = str "EV" then RecordType.EV
    else if t = str "MA" then RecordType.MA
    else if t = str "PA" then RecordType.PA
    else if t = str "MG" then RecordType.MG
    else if t = str "CG" then RecordType.CG
    else RecordType.unknown

-- ── Item-ID parser (`parseItemId`) ────────────────────────────────────────

inductive ItemType where
  | event | market | selection | unknown
deriving DecidableEq, Repr

structure ItemId where
  eventId : Str := []
  categoryId : Str := []
  fixtureId : Str := []
  selectionId : Str := []
  marketNum : Str := []
  type : ItemType := ItemType.unknown
deriving DecidableEq, Repr

/-- Strip the platform suffix, the regex `_(32(_0)?[UDF]?)$` of the source:
the leftmost (hence longest) of the candidate suffixes is removed. -/
def stripItemSuffix (id : Str) : Str :=
  let suffixes : List Str :=
    [str "_32_0F", str "_32_0U", str "_32_0D", str "_32_0",
     str "_32F", str "_32U", str "_32D", str "_32"]
  match suffixes.find? (fun suf => strHasSuf suf id) with
  | some suf => id.take (id.length - suf.length)
  | none => id

/-- Maximal non-empty digit prefix together with the remainder. -/
def parseDigits1 (s : Str) : Option (Str × Str) :=
  let ds := s.takeWhile Char.isDigit
  if ds.isEmpty then none else some (ds, s.drop ds.length)

/-- Match `^(?:OV|6V)(\d+)C(\d+)A$`, yielding (eventId, categoryId). -/
def matchEventId (s : Str) : Option (Str × Str) :=
  let body? : Option Str :=
    if strHasPre (str "OV") s then some (s.drop 2)
    else if strHasPre (str "6V") s then some (s.drop 2)
    else none
  match body? with
  | none => none
  | some b =>
    match parseDigits1 b with
    | none => none
    | some (eid, r1) =>
      match r1 with
      | 'C' :: r2 =>
        match parseDigits1 r2 with
        | none => none
        | some (cid, r3) => if r3 = ['A'] then some (eid, cid) else none
      | _ => none

/-- Match `^(?:OV|6V)(\d+)C(\d+)-(\d+)$`, yielding (eventId, categoryId, marketNum). -/
def matchMarketId (s : Str) : Option (Str × Str × Str) :=
  let body? : Option Str :=
    if strHasPre (str "OV") s then some (s.drop 2)
    else if strHasPre (str "6V") s then some (s.drop 2)
    else none
  match body? with
  | none => none
  | some b =>
    match parseDigits1 b with
    | none => none
    | some (eid, r1) =>
      match r1 with
      | 'C' :: r2 =>
        match parseDigits1 r2 with
        | none => none
        | some (cid, r3) =>
          match r3 with
          | '-' :: r4 =>
            match parseDigits1 r4 with
            | none => none
            | some (mn, r5) => if r5.isEmpty then some (eid, cid, mn) else none
          | _ => none
      | _ => none

/-- Match `(\d+)-0?(\d+)$` after a selection prefix, with the regex's
backtracking on the optional leading zero. -/
def matchSelTail (r1 : Str) : Option (Str × Str) :=
  match parseDigits1 r1 with
  | none => none
  | some (fx, r2) =>
    match r2 with
    | '-' :: r3 =>
      match r3 with
      | '0' :: r4 =>
        if !r4.isEmpty && r4.all Char.isDigit then some (fx, r4)
        else if r3.all Char.isDigit then some (fx, r3)
        else none
      | _ =>
        if !r3.isEmpty && r3.all Char.isDigit then some (fx, r3)
        else none
    | _ => none

/-- Match `^(?:OV|6VP?|OVES)(\d+)-0?(\d+)$` with the regex's ordered
alternation, yielding (fixtureId, selectionId). -/
def matchSelectionId (s : Str) : Option (Str × Str) :=
  let try1 := if strHasPre (str "OV") s then matchSelTail (s.drop 2) else none
  match try1 with
  | some r => some r
  | none =>
    let try2 := if strHasPre (str "6VP") s then matchSelTail (s.drop 3) else none
    match try2 with
    | some r => some r
    | none =>
      let try3 := if strHasPre (str "6V") s then matchSelTail (s.drop 2) else none
      match try3 with
      | some r => some r
      | none => if strHasPre (str "OVES") s then matchSelTail (s.drop 4) else none

/-- `parseItemId`: strip the platform suffix and classify the identifier as
event, market or selection (in that order), extracting the numeric parts. -/
def parseItemId (id : Str) : ItemId :=
  let clean := stripItemSuffix id
  match matchEventId clean with
  | some (eid, cid) => { eventId := eid, categoryId := cid, type := ItemType.event }
  | none =>
    match matchMarketId clean with
    | some (eid, cid, mn) =>
      { eventId := eid, categoryId := cid, marketNum := mn, type := ItemType.market }
    | none =>
      match matchSelectionId clean with
      | some (fx, sel) =>
        { fixtureId := fx, selectionId := sel, type := ItemType.selection }
      | none => { type := ItemType.unknown }

-- ── Frame splitting (`cleanAndSplit`, `isTopicHeader`, `splitFrame`) ──────

/-- Per-character normalisation of `cleanAndSplit`: 0x14/0x15 become the
separator 0x1E, 0x00/0x01/0x08 are stripped, all else kept. -/
def normChar (c : Char) : Option Char :=
  if c = '\x14' || c = '\x15' then some '\x1e'
  else if c = '\x00' || c = '\x01' || c = '\x08' then none
  else some c

/-- `cleanAndSplit`: replace the sub-message start bytes 0x14/0x15 with the
internal separator 0x1E, strip 0x00/0x01/0x08, split on the separator and
drop empty pieces. -/
def cleanAndSplit (raw : Str) : List Str :=
  let normalized := raw.filterMap normChar
  (splitOnChar '\x1e' normalized).filter (fun s => !s.isEmpty)

/-- Matches `/^EMPTY[FUD]$/i`. -/
def matchesEmptyFUD (s : Str) : Bool :=
  match s.map Char.toLower with
  | ['e', 'm', 'p', 't', 'y', c] => c == 'f' || c == 'u' || c == 'd'
  | _ => false

/-- `isTopicHeader`: a pipe-split part that starts a new sub-message. -/
def isTopicHeader (segment : Str) : Bool :=
  if segment.isEmpty then false
  else if strHasSuf (str "_32_0F") segment || strHasSuf (str "_32_0U") segment
      || strHasSuf (str "_32_0D") segment then true
  else if strHasSuf (str "_32F") segment || strHasSuf (str "_32U") segment
      || strHasSuf (str "_32D") segment then true
  else if matchesEmptyFUD segment then true
  else if segment = str "__time" then true
  else if strHasPre (str "#") segment then true
  else false

/-- `splitFrame`: control-byte splitting when it yields more than one chunk,
otherwise the pipe-based header-detection fallback.  Each sub-message is its
list of pipe-separated parts, the first part being the topic header. -/
def splitFrame (raw : Str) : List (List Str) :=
  let chunks := cleanAndSplit raw
  if chunks.length > 1 then
    chunks.map (fun chunk => splitOnChar '|' chunk)
  else
    let base : Str :=
      match chunks with
      | c :: _ => c
      | [] => raw
    let parts := splitOnChar '|' base
    let acc := parts.foldl
      (fun (acc : List (List Str) × List Str) part =>
        if isTopicHeader part then
          (if acc.2.isEmpty then acc.1 else acc.1 ++ [acc.2], [part])
        else (acc.1, acc.2 ++ [part]))
      ([], [])
    if acc.2.isEmpty then acc.1 else acc.1 ++ [acc.2]

-- ── Score and odds parsers ────────────────────────────────────────────────

/-- `parseSetScores`: `"3-6,1-0"` becomes `[(3,6),(1,0)]`; each side is
`parseInt(side, 10) || 0`, a missing side behaves as `undefined`. -/
def parseSetScores (ss : Str) : List (Int × Int) :=
  if ss.isEmpty then []
  else
    (splitOnChar ',' ss).map (fun set =>
      let parts := splitOnChar '-' set
      (parseIntOr0 parts.head?, parseIntOr0 parts[1]?))

/-- `parsePointScore`: `"40-15"` becomes `("40","15")`; empty or missing
halves default to `"0"`. -/
def parsePointScore (xp : Str) : Str × Str :=
  if xp.isEmpty then (str "0", str "0")
  else
    let parts := splitOnChar '-' xp
    let p1 := parts.headD []
    let p2 := (parts[1]?).getD []
    (if p1.isEmpty then str "0" else p1, if p2.isEmpty then str "0" else p2)

/-- `fractionalToDecimal`: `"9/2"` becomes `9/2 + 1 = 5.5`; no `/` or a
falsy denominator yields `0`; each side goes through `parseFloat`. -/
def fractionalToDecimal (odds : Str) : JSNum :=
  if odds.isEmpty || !(odds.contains '/') then JSNum.fin (mkRat 0 1)
  else
    match splitOnChar '/' odds with
    | num :: den :: _ =>
      let n := parseFloatJS num
      let d := parseFloatJS den
      if d.falsy then JSNum.fin (mkRat 0 1) else (n.div d).add1
    | _ => JSNum.fin (mkRat 0 1)

/-- `parseServing`: first comma-separated digit of `PI`; `"1"` means player 1
serving, anything else player 2; empty defaults to 1. -/
def parseServing (pi : Str) : Nat :=
  if pi.isEmpty then 1
  else
    let first := (splitOnChar ',' pi).headD []
    if first = str "1" then 1 else 2

-- ── Sport registry (`SPORT_REGISTRY`) and team-name splitting ─────────────

structure SportConfig where
  name : Str
  folder : Str
  nameSeparators : List Str
  usesSetScoring : Bool
  hasServing : Bool
  hasPointScore : Bool
deriving DecidableEq, Repr

/-- The static sport registry of the source, keyed by sport code. -/
def SPORT_REGISTRY (sportId : Str) : Option SportConfig :=
  if sportId = str "1" then
    some { name := str "Soccer", folder := str "soccer",
           nameSeparators := [str " v ", str " vs "],
           usesSetScoring := false, hasServing := false, hasPointScore := false }
  else if sportId = str "12" then
    some { name := str "Football", folder := str "american-football",
           nameSeparators := [str " @ ", str " v "],
           usesSetScoring := false, hasServing := false, hasPointScore := false }
  else if sportId = str "13" then
    some { name := str "Tennis", folder := str "tennis",
           nameSeparators := [str " v "],
           usesSetScoring := true, hasServing := true, hasPointScore := true }
  else if sportId = str "14" then
    some { name := str "Snooker", folder := str "snooker",
           nameSeparators := [str " v "],
           usesSetScoring := true, hasServing := false, hasPointScore := false }
  else if sportId = str "17" then
    some { name := str "Hockey", folder := str "hockey",
           nameSeparators := [str " @ ", str " v ", str " vs "],
           usesSetScoring := false, hasServing := false, hasPointScore := false }
  else if sportId = str "18" then
    some { name := str "Basketball", folder := str "basketball",
           nameSeparators := [str " @ ", str " vs ", str " v "],
           usesSetScoring := false, hasServing := false, hasPointScore := false }
  else if sportId = str "92" then
    some { name := str "Table Tennis", folder := str "table-tennis",
           nameSeparators := [str " v "],
           usesSetScoring := true, hasServing := true, hasPointScore := true }
  else none

/-- Split a name at the first occurrence of a separator, trimming both sides. -/
def splitAtSep (name sep : Str) : Option (Str × Str) :=
  match idxOfSub sep name with
  | some i => some (trimStr (name.take i), trimStr (name.drop (i + sep.length)))
  | none => none

/-- Try separators in order; first hit wins. -/
def firstSepSplit (name : Str) : List Str → Option (Str × Str)
  | [] => none
  | sep :: rest =>
    match splitAtSep name sep with
    | some r => some r
    | none => firstSepSplit name rest

/-- `parseTeams`: sport-specific separators first, then the common fallback
list; on no match the whole name is team 1. -/
def parseTeams (name sportId : Str) : Str × Str :=
  let fromCfg :=
    match SPORT_REGISTRY sportId with
    | some cfg => firstSepSplit name cfg.nameSeparators
    | none => none
  match fromCfg with
  | some r => r
  | none =>
    match firstSepSplit name [str " v ", str " vs ", str " @ "] with
    | some r => r
    | none => (name, [])

-- ── Data model ────────────────────────────────────────────────────────────

structure Selection where
  id : Str
  odds : Str
  oddsDecimal : JSNum
  position : Int
  suspended : Bool
deriving DecidableEq, Repr, Inhabited

structure Market where
  id : Str
  name : Str
  suspended : Bool
  selections : List Selection
deriving DecidableEq, Repr, Inhabited

inductive MatchStatus where
  | preMatch | inPlay
deriving DecidableEq, Repr, Inhabited

structure SportMatch where
  eventId : Str
  fixtureId : Str
  itemId : Str
  name : Str
  sportId : Str
  sportName : Str
  team1 : Str
  team2 : Str
  tournament : Str
  tournamentCode : Str
  status : MatchStatus
  scoreRaw : Str
  sets : List (Int × Int)
  currentGame : Str × Str
  serving : Nat
  markets : List (Str × Market)
  lastUpdated : Str
  scheduledStart : Int
deriving DecidableEq, Repr, Inhabited

inductive UpdateType where
  | score | odds | delete
deriving DecidableEq, Repr

structure MatchUpdate where
  type : UpdateType
  eventId : Str
  match_ : SportMatch
  changes : List Str
deriving DecidableEq, Repr

inductive Action where
  | F | U | D
deriving DecidableEq, Repr

structure ParsedSegment where
  header : Str
  action : Action
  recordType : RecordType
  fields : Fields
deriving Repr

structure SelInfo where
  fixtureId : Str
  position : Int
deriving DecidableEq, Repr

/-- The mutable state of the source's `StateManager` class: the match table,
the three reverse indexes and the full-dump parse context. -/
structure StateManager where
  «matches» : List (Str × SportMatch)
  fixtureToEvent : List (Str × Str)
  selectionInfo : List (Str × SelInfo)
  itemToEvent : List (Str × Str)
  currentTournament : Str
  currentTournamentCode : Str
  currentCategory : Str
  currentSportId : Str
  inSupportedSport : Bool
  lastEventId : Str
deriving DecidableEq, Repr

/-- A freshly constructed `StateManager`. -/
def initialState : StateManager :=
  { «matches» := [], fixtureToEvent := [], selectionInfo := [], itemToEvent := [],
    currentTournament := [], currentTournamentCode := [], currentCategory := [],
    currentSportId := [], inSupportedSport := false, lastEventId := [] }

/-- `getAllMatches`: the match table's values in insertion order. -/
def getAllMatches (s : StateManager) : List SportMatch := mapValues s.«matches»

/-- `extractEventId`: match `^(?:OV|6V)?(\d+)C` and return the digits
(`""` on failure). -/
def extractEventId (id : Str) : Str :=
  let body :=
    if strHasPre (str "OV") id || strHasPre (str "6V") id then id.drop 2 else id
  let ds := body.takeWhile Char.isDigit
  if ds.isEmpty then []
  else
    match body.drop ds.length with
    | 'C' :: _ => ds
    | _ => []

-- ── Full-dump application ─────────────────────────────────────────────────

/-- Reset the full-dump parse context (start of `processFullDump`). -/
def dumpResetContext (s : StateManager) : StateManager :=
  { s with inSupportedSport := false, currentSportId := [],
           currentTournament := [], currentTournamentCode := [],
           currentCategory := [], lastEventId := [] }

/-- Clear the match table and the three reverse indexes (global dump only). -/
def dumpClear (s : StateManager) : StateManager :=
  { s with «matches» := [], fixtureToEvent := [], selectionInfo := [], itemToEvent := [] }

/-- Build the fresh `SportMatch` of the EV branch of `processFullDump`. -/
def buildMatch (s : StateManager) (f : Fields) (eventId sportId : Str)
    (cfg : SportConfig) : SportMatch :=
  let teams := parseTeams (truthyD (getField f (str "NA")) []) sportId
  { eventId := eventId,
    fixtureId := truthyD (getField f (str "OI")) [],
    itemId := truthyD (getField f (str "IT")) (truthyD (getField f (str "ID")) []),
    name := truthyD (getField f (str "NA")) [],
    sportId := sportId,
    sportName := cfg.name,
    team1 := teams.1,
    team2 := teams.2,
    tournament := truthyD (getField f (str "CT")) s.currentTournament,
    tournamentCode := truthyD (getField f (str "CC")) s.currentTournamentCode,
    status :=
      (match getField f (str "ES") with
       | none => MatchStatus.preMatch
       | some es => if es.isEmpty then MatchStatus.preMatch else MatchStatus.inPlay),
    scoreRaw := truthyD (getField f (str "SS")) [],
    sets := if cfg.usesSetScoring then parseSetScores ((getField f (str "SS")).getD []) else [],
    currentGame :=
      if cfg.hasPointScore then parsePointScore ((getField f (str "XP")).getD [])
      else (str "0", str "0"),
    serving := if cfg.hasServing then parseServing ((getField f (str "PI")).getD []) else 0,
    markets := [],
    lastUpdated := truthyD (getField f (str "TU")) [],
    scheduledStart := parseIntOr0 (getField f (str "SM")) }

/-- Replace the last entry of a market table (append target of PA records). -/
def updateLastEntry (g : Str × Market → Str × Market) :
    List (Str × Market) → List (Str × Market)
  | [] => []
  | [x] => [g x]
  | x :: y :: rest => x :: updateLastEntry g (y :: rest)

/-- The EV sport-upgrade step: an EV record that itself carries a supported
`CL` field adopts that sport (detail-subscription case). -/
def evUpgrade (s : StateManager) (seg : ParsedSegment) : StateManager :=
  if seg.recordType = RecordType.EV then
    match getField seg.fields (str "CL") with
    | some cl =>
      if !cl.isEmpty && (SPORT_REGISTRY cl).isSome then
        { s with currentSportId := cl, inSupportedSport := true }
      else s
    | none => s
  else s

/-- One record of a full dump applied to the state (loop body of
`processFullDump`). -/
def processDumpSeg (s : StateManager) (seg : ParsedSegment) : StateManager :=
  let f := seg.fields
  let rt := seg.recordType
  if rt = RecordType.CL then
    let sid := truthyD (getField f (str "CL")) []
    { s with currentSportId := sid, inSupportedSport := (SPORT_REGISTRY sid).isSome }
  else
    let s := evUpgrade s seg
    if !s.inSupportedSport then s
    else if rt = RecordType.CT then
      { s with currentTournament := truthyD (getField f (str "NA")) [],
               currentTournamentCode :=
                 truthyD (getField f (str "CC")) (truthyD (getField f (str "ID")) []),
               currentCategory := truthyD (getField f (str "L3")) [] }
    else if rt = RecordType.EV then
      let eventId := extractEventId (truthyD (getField f (str "ID")) [])
      if eventId.isEmpty then s
      else
        let sportId := truthyD (getField f (str "CL")) s.currentSportId
        match SPORT_REGISTRY sportId with
        | none => s
        | some cfg =>
          let m := buildMatch s f eventId sportId cfg
          let s := { s with «matches» := mapSet s.«matches» eventId m }
          let s :=
            if !m.fixtureId.isEmpty then
              { s with fixtureToEvent := mapSet s.fixtureToEvent m.fixtureId eventId }
            else s
          { s with
            itemToEvent :=
              mapSet s.itemToEvent
                (truthyD (getField f (str "IT")) (truthyD (getField f (str "ID")) []))
                eventId,
            lastEventId := eventId }
    else if rt = RecordType.MA && !s.lastEventId.isEmpty then
      match mapGet s.«matches» s.lastEventId with
      | none => s
      | some m =>
        let market : Market :=
          { id := truthyD (getField f (str "MA")) (truthyD (getField f (str "ID")) []),
            name := truthyD (getField f (str "NA")) [],
            suspended := getField f (str "SU") == some (str "1"),
            selections := [] }
        let m' := { m with markets := mapSet m.markets market.id market }
        { s with «matches» := mapSet s.«matches» s.lastEventId m' }
    else if rt = RecordType.PA && !s.lastEventId.isEmpty then
      match mapGet s.«matches» s.lastEventId with
      | none => s
      | some m =>
        let sel : Selection :=
          { id := truthyD (getField f (str "ID")) [],
            odds := truthyD (getField f (str "OD")) [],
            oddsDecimal := fractionalToDecimal (truthyD (getField f (str "OD")) []),
            position := parseIntOr0 (getField f (str "OR")),
            suspended := getField f (str "SU") == some (str "1") }
        let markets' :=
          match m.markets with
          | [] => m.markets
          | _ =>
            updateLastEntry
              (fun p => (p.1, { p.2 with selections := p.2.selections ++ [sel] })) m.markets
        let s := { s with «matches» := mapSet s.«matches» s.lastEventId ({ m with markets := markets' }) }
        match getField f (str "FI") with
        | some fi =>
          if !fi.isEmpty then
            let info : SelInfo := { fixtureId := fi, position := sel.position }
            let key := truthyD (getField f (str "ID")) []
            { s with selectionInfo := mapSet s.selectionInfo key info }
          else s
        | none => s
    else s

/-- `processFullDump`: reset the parse context, clear state for a global
dump, then apply the records in wire order. -/
def processFullDump (s : StateManager) (segments : List ParsedSegment)
    (isGlobalDump : Bool) : StateManager :=
  let s := dumpResetContext s
  let s := if isGlobalDump then dumpClear s else s
  segments.foldl processDumpSeg s

-- ── Incremental update application (`processUpdate`) ──────────────────────

/-- Render an `Int` the way JS stringifies an integral number. -/
def intToStr (i : Int) : Str := (toString i).toList

/-- Render a `Nat` the way JS stringifies it. -/
def natToStr (n : Nat) : Str := (toString n).toList

/-- `match.sets.map(s => s.join("-")).join(",")`. -/
def joinChar (c : Char) : List Str → Str
  | [] => []
  | [x] => x
  | x :: y :: rest => x ++ c :: joinChar c (y :: rest)

def serializeSets (sets : List (Int × Int)) : Str :=
  joinChar ',' (sets.map (fun p => intToStr p.1 ++ '-' :: intToStr p.2))

/-- The `SS` step of an event-scoped delta. -/
def applySS (cfg : SportConfig) (f : Fields) (m0 : SportMatch) : SportMatch × List Str :=
  match getField f (str "SS") with
  | none => (m0, [])
  | some ss =>
    let oldScore := m0.scoreRaw
    let m := { m0 with scoreRaw := ss }
    if cfg.usesSetScoring then
      let oldSets := serializeSets m.sets
      let m := { m with sets := parseSetScores ss }
      let newSets := serializeSets m.sets
      (m, if oldSets ≠ newSets then [str "sets: " ++ newSets] else [])
    else
      (m, if oldScore ≠ ss then [str "score: " ++ ss] else [])

/-- The `XP` step of an event-scoped delta. -/
def applyXP (cfg : SportConfig) (f : Fields) (m1 : SportMatch) : SportMatch × List Str :=
  match getField f (str "XP") with
  | some xp =>
    if cfg.hasPointScore then
      let oldGame := m1.currentGame.1 ++ '-' :: m1.currentGame.2
      let m := { m1 with currentGame := parsePointScore xp }
      let newGame := m.currentGame.1 ++ '-' :: m.currentGame.2
      (m, if oldGame ≠ newGame then [str "game: " ++ newGame] else [])
    else (m1, [])
  | none => (m1, [])

/-- The `PI` step of an event-scoped delta. -/
def applyPI (cfg : SportConfig) (f : Fields) (m2 : SportMatch) : SportMatch × List Str :=
  match getField f (str "PI") with
  | some pi =>
    if cfg.hasServing then
      let oldServing := m2.serving
      let m := { m2 with serving := parseServing pi }
      (m, if oldServing ≠ m.serving then [str "serving: P" ++ natToStr m.serving] else [])
    else (m2, [])
  | none => (m2, [])

/-- The silent `TU` step of an event-scoped delta. -/
def applyTU (f : Fields) (m3 : SportMatch) : SportMatch :=
  match getField f (str "TU") with
  | some tu => if !tu.isEmpty then { m3 with lastUpdated := tu } else m3
  | none => m3

/-- The silent `ES` step of an event-scoped delta. -/
def applyES (f : Fields) (m4 : SportMatch) : SportMatch :=
  match getField f (str "ES") with
  | some es =>
    { m4 with status := if es.isEmpty then MatchStatus.preMatch else MatchStatus.inPlay }
  | none => m4

/-- Apply the SS/XP/PI/TU/ES fields of an event-scoped delta to a match,
accumulating the human-readable change strings in source order. -/
def applyEventFields (cfg : SportConfig) (f : Fields) (m0 : SportMatch) :
    SportMatch × List Str :=
  let step1 := applySS cfg f m0
  let step2 := applyXP cfg f step1.1
  let step3 := applyPI cfg f step2.1
  let m4 := applyTU f step3.1
  let m5 := applyES f m4
  (m5, step1.2 ++ step2.2 ++ step3.2)

/-- Update the selections of one market that match the selection id,
returning the new selection list and the change strings (inner loop of the
selection branch of `processUpdate`). -/
def updateSelsIn (team1 team2 : Str) (isThreeWay : Bool) (selId : Str)
    (od? su? : Option Str) : List Selection → List Selection × List Str
  | [] => ([], [])
  | sel :: rest =>
    let hit : Selection × List Str :=
      if sel.id = selId then
        let a : Selection × List Str :=
          match od? with
          | some od =>
            if od ≠ sel.odds then
              let label :=
                if sel.position = 0 then team1
                else if sel.position = 1 then (if isThreeWay then str "Draw" else team2)
                else team2
              ({ sel with odds := od, oddsDecimal := fractionalToDecimal od },
               [label ++ str ": " ++ sel.odds ++ str " → " ++ od])
            else (sel, [])
          | none => (sel, [])
        let b : Selection :=
          match su? with
          | some su => { a.1 with suspended := su = str "1" }
          | none => a.1
        (b, a.2)
      else (sel, [])
    let tail := updateSelsIn team1 team2 isThreeWay selId od? su? rest
    (hit.1 :: tail.1, hit.2 ++ tail.2)

/-- Walk every market's selections (outer loop of the selection branch of
`processUpdate`). -/
def updateMarketsForSel (team1 team2 : Str) (selId : Str) (od? su? : Option Str) :
    List (Str × Market) → List (Str × Market) × List Str
  | [] => ([], [])
  | (k, mk) :: rest =>
    let three := decide (3 ≤ mk.selections.length)
    let inner := updateSelsIn team1 team2 three selId od? su? mk.selections
    let tail := updateMarketsForSel team1 team2 selId od? su? rest
    ((k, { mk with selections := inner.1 }) :: tail.1, inner.2 ++ tail.2)

/-- `header.replace(/[UD]$/, "")`: drop one trailing `U` or `D`. -/
def stripActionSuffix (h : Str) : Str :=
  match h.getLast? with
  | some c => if c = 'U' || c = 'D' then h.dropLast else h
  | none => h

/-- `processUpdate`: apply one incremental (U/D) segment, returning the new
state and the emitted `MatchUpdate`, if any. -/
def processUpdate (s : StateManager) (seg : ParsedSegment) :
    StateManager × Option MatchUpdate :=
  if seg.header.isEmpty then (s, none)
  else
    let itemId := stripActionSuffix seg.header
    let f := seg.fields
    let pid := parseItemId itemId
    if pid.type = ItemType.event then
      match SPORT_REGISTRY pid.categoryId with
      | none => (s, none)
      | some cfg =>
        match mapGet s.«matches» pid.eventId with
        | none => (s, none)
        | some m0 =>
          let applied := applyEventFields cfg f m0
          let m' := applied.1
          let changes := applied.2
          if seg.action = Action.D then
            ({ s with «matches» := mapDelete s.«matches» pid.eventId },
             some { type := UpdateType.delete, eventId := pid.eventId,
                    match_ := m', changes := [str "deleted"] })
          else
            let s' := { s with «matches» := mapSet s.«matches» pid.eventId m' }
            if changes.isEmpty then (s', none)
            else
              (s', some { type := UpdateType.score, eventId := pid.eventId,
                          match_ := m', changes := changes })
    else if pid.type = ItemType.selection then
      match mapGet s.fixtureToEvent pid.fixtureId with
      | none => (s, none)
      | some eventId =>
        match mapGet s.«matches» eventId with
        | none => (s, none)
        | some m =>
          let walked :=
            updateMarketsForSel m.team1 m.team2 pid.selectionId
              (getField f (str "OD")) (getField f (str "SU")) m.markets
          let m' := { m with markets := walked.1 }
          let changes := walked.2
          let s' := { s with «matches» := mapSet s.«matches» eventId m' }
          if changes.isEmpty then (s', none)
          else
            (s', some { type := UpdateType.odds, eventId := eventId,
                        match_ := m', changes := changes })
    else (s, none)

-- ── Message processing (`processMessage`) ─────────────────────────────────

/-- A header ends with the given character. -/
def endsWithChar (s : Str) (c : Char) : Bool := s.getLast? == some c

/-- Process one sub-message (one iteration of the `processMessage` loop),
returning the new state and the updates it contributed. -/
def processSub (s : StateManager) (parts : List Str) :
    StateManager × List MatchUpdate :=
  match parts with
  | [] => (s, [])
  | header :: restParts =>
    if header.isEmpty || header = str "__time" || strHasPre (str "#") header
        || strHasPre (str "empty") (header.map Char.toLower) then (s, [])
    else if endsWithChar header 'F' then
      let segments := restParts.foldr
        (fun part acc =>
          let p := trimStr part
          if p.isEmpty then acc
          else
            let fields := parseFields p
            ({ header := header, action := Action.F,
               recordType := detectRecordType fields, fields := fields } :: acc))
        ([] : List ParsedSegment)
      let isGlobalDump := containsSub (str "InPlay") header
      (processFullDump s segments isGlobalDump, [])
    else if endsWithChar header 'U' || endsWithChar header 'D' || endsWithChar header 'I' then
      let lastSeg :=
        if header.contains '/' then (splitOnChar '/' header).getLastD []
        else header
      let action := if lastSeg.getLast? == some 'D' then Action.D else Action.U
      let fields := parseFields (trimStr (restParts.headD []))
      let seg : ParsedSegment :=
        { header := lastSeg, action := action, recordType := RecordType.unknown,
          fields := fields }
      let r := processUpdate s seg
      (r.1, match r.2 with | some u => [u] | none => [])
    else (s, [])

/-- Fold `processSub` over a list of sub-messages, concatenating the
emitted updates in order. -/
def runSubs (s : StateManager) : List (List Str) → StateManager × List MatchUpdate
  | [] => (s, [])
  | p :: rest =>
    let r1 := processSub s p
    let r2 := runSubs r1.1 rest
    (r2.1, r1.2 ++ r2.2)

/-- `processMessage`: split the raw payload into sub-messages and process
them in order, returning the final state and the emitted updates. -/
def processMessage (s : StateManager) (raw : Str) :
    StateManager × List MatchUpdate :=
  runSubs s (splitFrame raw)

-- ── Concrete payloads used by the scenario theorems ───────────────────────

/-- The S1 tennis full-dump sub-message of the specification. -/
def s1raw : Str := str "OVInPlay_32_0F|CL;CL=13;NA=Tennis;|CT;NA=ATP Santiago;CC=21124106;L3=ATP3-R2;|EV;ID=190321250C13A_32_0;NA=Mariano Navone v Luciano Darderi;OI=190340113;SS=3-6,0-0;XP=40-15;PI=1,0;ES=2;CL=13;|MA;ID=1763;NA=Money Line;SU=0;|PA;ID=701873422;FI=190340113;OD=9/2;OR=0;SU=0;|PA;ID=701873420;FI=190340113;OD=1/7;OR=1;SU=0;|"

/-- State after ingesting the S1 dump from a fresh state. -/
def st1 : StateManager := (processMessage initialState s1raw).1

-- ── Definitions used to state the claims ──────────────────────────────────

/-- States reachable from a fresh `StateManager` by `processMessage` calls. -/
inductive Reachable : StateManager → Prop where
  | init : Reachable initialState
  | step (s : StateManager) (raw : Str) : Reachable s → Reachable (processMessage s raw).1

/-- The fixture reverse-index invariant as claimed by the spec: every match
with a non-empty fixture id resolves through `fixtureToEvent` back to its
own event id. -/
def FixtureIndexInv (s : StateManager) : Prop :=
  ∀ p ∈ s.«matches»,
    p.2.fixtureId = [] ∨ mapGet s.fixtureToEvent p.2.fixtureId = some p.2.eventId

/-- The weaker fixture reverse-index invariant that the code maintains:
a non-empty fixture id is always present in `fixtureToEvent` (though it may
point at a different, later-registered event). -/
def FixtureKeyInv (s : StateManager) : Prop :=
  ∀ p ∈ s.«matches»,
    p.2.fixtureId = [] ∨ (mapGet s.fixtureToEvent p.2.fixtureId).isSome = true

/-- The serving value of a match is consistent with its sport's capability:
the sport is registered, and when it has a serving indicator the value is 1
or 2. -/
def servingOK (m : SportMatch) : Bool :=
  match SPORT_REGISTRY m.sportId with
  | some cfg => !cfg.hasServing || (m.serving == 1 || m.serving == 2)
  | none => false

/-- Every stored match has a serving value consistent with its sport. -/
def ServingInv (s : StateManager) : Prop :=
  ∀ p ∈ s.«matches», servingOK p.2 = true

/-- Number of selections of a match that carry the given selection id and
whose stored odds differ from the delta's `OD` value. -/
def countOddsHits (m : SportMatch) (selId od : Str) : Nat :=
  (m.markets.map
    (fun p => (p.2.selections.filter
      (fun sel => sel.id == selId && sel.odds != od)).length)).sum

/-- The spec's description of an EV record that itself announces a supported
sport (`CL` field): it upgrades the dump-walk context. -/
def dumpUpgrade (sport : Str) (sup : Bool) (seg : ParsedSegment) : Str × Bool :=
  if seg.recordType = RecordType.EV then
    match getField seg.fields (str "CL") with
    | some cl =>
      if !cl.isEmpty && (SPORT_REGISTRY cl).isSome then (cl, true) else (sport, sup)
    | none => (sport, sup)
  else (sport, sup)

/-- One step of the spec's dump-walk context machine (§4.5.1): given the
current sport and its supportedness, a record yields the next context and
optionally the event id it registers. -/
def dumpCtxStep (sport : Str) (sup : Bool) (seg : ParsedSegment) :
    Str × Bool × Option Str :=
  if seg.recordType = RecordType.CL then
    let sid := truthyD (getField seg.fields (str "CL")) []
    (sid, (SPORT_REGISTRY sid).isSome, none)
  else
    let upg := dumpUpgrade sport sup seg
    if !upg.2 then (upg.1, upg.2, none)
    else if seg.recordType = RecordType.EV then
      let eid := extractEventId (truthyD (getField seg.fields (str "ID")) [])
      if eid.isEmpty then (upg.1, upg.2, none)
      else
        match SPORT_REGISTRY (truthyD (getField seg.fields (str "CL")) upg.1) with
        | none => (upg.1, upg.2, none)
        | some _ => (upg.1, upg.2, some eid)
    else (upg.1, upg.2, none)

/-- The event ids a full dump registers, read off the wire order of its
records as the spec describes (§4.5.1): a context machine tracking the
current sport and its supportedness, collecting the id of every EV record
that yields a non-empty event id in a supported sport. -/
def dumpEventIds : Str → Bool → List ParsedSegment → List Str
  | _, _, [] => []
  | sport, sup, seg :: rest =>
    let st := dumpCtxStep sport sup seg
    match st.2.2 with
    | some e => e :: dumpEventIds st.1 st.2.1 rest
    | none => dumpEventIds st.1 st.2.1 rest

/-- Every stored match records the event id it is keyed under. -/
def MatchKeyInv (s : StateManager) : Prop :=
  ∀ p ∈ s.«matches», p.2.eventId = p.1

-- ── Concrete payloads for counterexamples and witnesses ───────────────────

/-- A dump registering two events that share the fixture id `55`. -/
def c5raw : Str :=
  str "OVInPlay_32_0F|CL;CL=13;|EV;ID=1C13A;NA=a v b;OI=55;|EV;ID=2C13A;NA=c v d;OI=55;|"

def c5st : StateManager := (processMessage initialState c5raw).1

/-- A dump registering a Soccer (sport 1, no serving indicator) match `7`. -/
def c7raw : Str := str "OVInPlay_32_0F|CL;CL=1;|EV;ID=7C1A;NA=a v b;|"

/-- The Soccer match `7` after an event-scoped delta whose item id carries
the Tennis category `13` and a `PI` field. -/
def c7st : StateManager :=
  (processMessage (processMessage initialState c7raw).1 (str "OV7C13A_32_0U|PI=1,0;|")).1

/-- A dump whose match `1` (fixture `55`) holds two markets, each with a
selection of id `5` at odds `1/2`. -/
def c4raw : Str :=
  str "OVInPlay_32_0F|CL;CL=13;|EV;ID=1C13A;NA=a v b;OI=55;|MA;ID=m1;NA=x;|PA;ID=5;OD=1/2;OR=0;|MA;ID=m2;NA=y;|PA;ID=5;OD=1/2;OR=0;|"

def c4st : StateManager := (processMessage initialState c4raw).1

/-- The selection-scoped delta sub-message `OV55-5_32_0U|OD=2/1;` as the
segment `processMessage` constructs for it. -/
def c4seg : ParsedSegment :=
  { header := str "OV55-5_32_0U", action := Action.U,
    recordType := RecordType.unknown, fields := [(str "OD", str "2/1")] }

def c4match : SportMatch := (mapGet c4st.«matches» (str "1")).getD default

/-- Payload pair on which concatenation and sequential processing disagree:
`c6B` alone parses as a header-less fragment and is dropped, while appended
to `c6A` it merges into the dump's only record. -/
def c6A : Str := str "OVInPlay_32_0F|CL;CL=13;"

def c6B : Str := str "EV;ID=1C13A;NA=a v b;"

/-- Control-byte framed payloads (two sub-messages each) for the amended
concatenation property. -/
def c6wA : Str := str "\x15OVInPlay_32_0F|CL;CL=13;\x15OV7C13A_32_0U|SS=1;"

def c6wB : Str := str "\x15__time\x15EMPTYF"

/-- State after deleting the S1 match via an event-scoped D delta. -/
def st1del : StateManager := (processMessage st1 (str "OV190321250C13A_32_0D||")).1

/-- The event-scoped delete segment for the S1 match. -/
def c10dseg : ParsedSegment :=
  { header := str "OV190321250C13A_32_0D", action := Action.D,
    recordType := RecordType.unknown, fields := [] }

/-- A selection-scoped delta addressed through the S1 fixture id. -/
def c10sseg : ParsedSegment :=
  { header := str "OV190340113-701873422_32_0U", action := Action.U,
    recordType := RecordType.unknown, fields := [(str "OD", str "4/1")] }

def c10match : SportMatch := (mapGet st1.«matches» (str "190321250")).getD default

/-- The Tennis sport configuration (registry entry for sport 13). -/
def tennisCfg : SportConfig :=
  { name := str "Tennis", folder := str "tennis", nameSeparators := [str " v "],
    usesSetScoring := true, hasServing := true, hasPointScore := true }

/-- A full-dump segment whose record type is unknown (a junk record). -/
def junkSeg : ParsedSegment :=
  { header := str "OVInPlay_32_0F", action := Action.F,
    recordType := RecordType.unknown, fields := [(typeKey, str "ZZ")] }

/-- A well-formed EV segment, as produced from the S1 dump body. -/
def evSeg : ParsedSegment :=
  { header := str "OVInPlay_32_0F", action := Action.F,
    recordType := RecordType.EV,
    fields := parseFields (str "EV;ID=9C13A;NA=a v b;OI=77;") }

-- ═══════════════════════════════ Theorems ═══════════════════════════════

-- ── Association-list (JS Map) lemmas ──────────────────────────────────────

theorem mapGet_cons {α : Type} (k' : Str) (w : α) (tl : List (Str × α)) (k : Str) :
    mapGet ((k', w) :: tl) k = if k' = k then some w else mapGet tl k := by
  by_cases h : k' = k
  · rw [if_pos h]
    unfold mapGet
    rw [List.find?_cons_of_pos _ (by simp [h])]
    rfl
  · rw [if_neg h]
    unfold mapGet
    rw [List.find?_cons_of_neg _ (by simp [h])]

theorem mapGet_mapSet {α : Type} (m : List (Str × α)) (a b : Str) (v : α) :
    mapGet (mapSet m a v) b = if b = a then some v else mapGet m b := by
  induction m with
  | nil =>
    rw [show mapSet ([] : List (Str × α)) a v = [(a, v)] from rfl, mapGet_cons]
    by_cases h : b = a
    · rw [if_pos (Eq.symm h), if_pos h]
    · rw [if_neg (fun hh => h (Eq.symm hh)), if_neg h]
  | cons hd tl ih =>
    obtain ⟨k, w⟩ := hd
    rw [show mapSet ((k, w) :: tl) a v
        = if k = a then (a, v) :: tl else (k, w) :: mapSet tl a v from rfl]
    by_cases hk : k = a
    · rw [if_pos hk]
      subst hk
      rw [mapGet_cons, mapGet_cons]
      by_cases h : b = k
      · rw [if_pos (Eq.symm h), if_pos h]
      · rw [if_neg (fun hh => h (Eq.symm hh)), if_neg h,
          if_neg (fun hh => h (Eq.symm hh))]
    · rw [if_neg hk, mapGet_cons, mapGet_cons, ih]
      by_cases h : k = b
      · have hba : ¬b = a := fun hh => hk (h.trans hh)
        rw [if_pos h, if_neg hba, if_pos h]
      · rw [if_neg h, if_neg h]

theorem mem_mapSet {α : Type} {m : List (Str × α)} {a : Str} {v : α} {p : Str × α}
    (h : p ∈ mapSet m a v) : p = (a, v) ∨ p ∈ m := by
  induction m with
  | nil =>
    rw [show mapSet ([] : List (Str × α)) a v = [(a, v)] from rfl] at h
    exact Or.inl (List.mem_singleton.mp h)
  | cons hd tl ih =>
    obtain ⟨k, w⟩ := hd
    rw [show mapSet ((k, w) :: tl) a v
        = if k = a then (a, v) :: tl else (k, w) :: mapSet tl a v from rfl] at h
    by_cases hk : k = a
    · rw [if_pos hk] at h
      rcases List.mem_cons.mp h with h' | h'
      · exact Or.inl h'
      · exact Or.inr (List.mem_cons_of_mem _ h')
    · rw [if_neg hk] at h
      rcases List.mem_cons.mp h with h' | h'
      · exact Or.inr (by rw [h']; exact List.mem_cons_self _ _)
      · rcases ih h' with h'' | h''
        · exact Or.inl h''
        · exact Or.inr (List.mem_cons_of_mem _ h'')

theorem mapGet_isSome_iff {α : Type} (m : List (Str × α)) (k : Str) :
    (mapGet m k).isSome = true ↔ k ∈ mapKeys m := by
  induction m with
  | nil => simp [mapGet, mapKeys]
  | cons hd tl ih =>
    obtain ⟨k', w⟩ := hd
    rw [mapGet_cons]
    by_cases h : k' = k
    · rw [if_pos h]
      subst h
      exact ⟨fun _ => List.mem_cons_self _ _, fun _ => rfl⟩
    · rw [if_neg h, ih]
      simp only [mapKeys, List.map_cons, List.mem_cons]
      constructor
      · exact Or.inr
      · rintro (h' | h')
        · exact absurd h'.symm h
        · exact h'

theorem mem_mapKeys_mapSet {α : Type} (m : List (Str × α)) (a b : Str) (v : α) :
    b ∈ mapKeys (mapSet m a v) ↔ b = a ∨ b ∈ mapKeys m := by
  rw [← mapGet_isSome_iff, ← mapGet_isSome_iff, mapGet_mapSet]
  by_cases h : b = a
  · simp [h]
  · simp [h]

theorem mem_of_mapGet_eq_some {α : Type} {m : List (Str × α)} {k : Str} {v : α}
    (h : mapGet m k = some v) : (k, v) ∈ m := by
  induction m with
  | nil => simp [mapGet] at h
  | cons hd tl ih =>
    obtain ⟨k', w⟩ := hd
    rw [mapGet_cons] at h
    by_cases hk : k' = k
    · rw [if_pos hk] at h
      have hv : w = v := Option.some_inj.mp h
      subst hk
      subst hv
      exact List.mem_cons_self _ _
    · rw [if_neg hk] at h
      exact List.mem_cons_of_mem _ (ih h)

theorem mem_mapDelete {α : Type} {m : List (Str × α)} {k : Str} {p : Str × α}
    (h : p ∈ mapDelete m k) : p ∈ m :=
  List.mem_of_mem_filter h

-- ── C3: the S1 full-dump scenario ─────────────────────────────────────────

/-- **C3.** Evaluating the code on the S1 dump: every field the claim lists
comes out as claimed — one match `190321250`, teams Mariano Navone and
Luciano Darderi, Tennis, sets `[(3,6),(0,0)]`, game `40-15`, in-play, market
`1763` with the two selections at `9/2` (5.5) and `1/7` (8/7) — **except**
`serving`, which the code sets to `1` (the claim, following the repository's
protocol documentation for `PI=1,0`, says 2). -/
theorem claim_C3_s1_code_divergence :
    mapKeys st1.«matches» = [str "190321250"]
    ∧ (mapGet st1.«matches» (str "190321250")).map SportMatch.team1
        = some (str "Mariano Navone")
    ∧ (mapGet st1.«matches» (str "190321250")).map SportMatch.team2
        = some (str "Luciano Darderi")
    ∧ (mapGet st1.«matches» (str "190321250")).map SportMatch.sportName
        = some (str "Tennis")
    ∧ (mapGet st1.«matches» (str "190321250")).map SportMatch.sets
        = some [(3, 6), (0, 0)]
    ∧ (mapGet st1.«matches» (str "190321250")).map SportMatch.currentGame
        = some (str "40", str "15")
    ∧ (mapGet st1.«matches» (str "190321250")).map SportMatch.status
        = some MatchStatus.inPlay
    ∧ (mapGet st1.«matches» (str "190321250")).map SportMatch.markets
        = some [(str "1763",
            { id := str "1763", name := str "Money Line", suspended := false,
              selections :=
                [{ id := str "701873422", odds := str "9/2",
                   oddsDecimal := JSNum.fin (mkRat 11 2), position := 0, suspended := false },
                 { id := str "701873420", odds := str "1/7",
                   oddsDecimal := JSNum.fin (mkRat 8 7), position := 1, suspended := false }] })]
    ∧ (mapGet st1.«matches» (str "190321250")).map SportMatch.serving = some 1
    ∧ ¬ (mapGet st1.«matches» (str "190321250")).map SportMatch.serving = some 2 := by
  decide

-- ── C2: fractional-to-decimal conversion ──────────────────────────────────

/-- **C2, counterexample.** `"9/2/3"` is not of the form `integer '/'
integer`, yet `fractionalToDecimal` returns `5.5` (it destructures only the
first two `/`-separated parts), not `0` as the claim requires for malformed
input. -/
theorem claim_C2_counterexample :
    fractionalToDecimal (str "9/2/3") = JSNum.fin (mkRat 11 2)
    ∧ JSNum.fin (mkRat 11 2) ≠ JSNum.fin (mkRat 0 1) := by
  decide

-- ── C5: fixture reverse-index invariant ───────────────────────────────────

/-- **C5, counterexample.** A reachable state violating the claimed
invariant: the dump `c5raw` registers events `1` and `2` with the same
fixture id `55`; `fixtureToEvent["55"]` ends up pointing at `2`, so match
`1` no longer maps back to its own event id. -/
theorem claim_C5_counterexample :
    Reachable c5st ∧ ¬ FixtureIndexInv c5st :=
  ⟨Reachable.step _ _ Reachable.init, by unfold FixtureIndexInv; decide⟩

-- ── C7: serving-indicator invariant ───────────────────────────────────────

/-- **C7, counterexample.** A reachable state with a Soccer match (sport 1,
`hasServing = false`) whose `serving` is `1`: an event-scoped delta whose
item id carries the Tennis category (`OV7C13A…U` with a `PI` field) is
applied to the Soccer match `7` because `processUpdate` looks up the sport
configuration by the delta's category id, not the match's. -/
theorem claim_C7_counterexample :
    Reachable c7st
    ∧ (mapGet c7st.«matches» (str "7")).map SportMatch.sportId = some (str "1")
    ∧ (SPORT_REGISTRY (str "1")).map SportConfig.hasServing = some false
    ∧ (mapGet c7st.«matches» (str "7")).map SportMatch.serving = some 1 :=
  ⟨Reachable.step _ _ (Reachable.step _ _ Reachable.init),
   by decide, by decide, by decide⟩

-- ── C4: odds-delta event count ────────────────────────────────────────────

/-- **C4, counterexample.** In state `c4st` the delta `OV55-5_32_0U|OD=2/1;`
hits `k = 2` selections whose stored odds differ from the new value, yet
`processMessage` emits exactly **one** `odds` event (carrying two change
entries), not the two events the claim requires. -/
theorem claim_C4_counterexample :
    (mapGet c4st.«matches» (str "1")).map (fun m => countOddsHits m (str "5") (str "2/1"))
      = some 2
    ∧ (processMessage c4st (str "OV55-5_32_0U|OD=2/1;|")).2.length = 1 := by
  decide

-- ── C6: concatenation of payloads ─────────────────────────────────────────

/-- **C6, counterexample.** Processing the concatenation `c6A ++ c6B` is not
the same as processing `c6A` then `c6B`: alone, `c6B` has no recognisable
topic header and is dropped; appended, its text merges into the last record
of `c6A`'s dump and creates match `1`. -/
theorem claim_C6_counterexample :
    (processMessage initialState (c6A ++ c6B)).1
      ≠ (processMessage (processMessage initialState c6A).1 c6B).1 := by
  decide

-- ── C9: malformed records never reject the rest of the frame ──────────────

theorem evUpgrade_not_EV (s : StateManager) (j : ParsedSegment)
    (hj : j.recordType ≠ RecordType.EV) : evUpgrade s j = s := by
  unfold evUpgrade
  rw [if_neg hj]

theorem processDumpSeg_unknown (s : StateManager) (j : ParsedSegment)
    (hj : j.recordType = RecordType.unknown) : processDumpSeg s j = s := by
  unfold processDumpSeg
  rw [hj]
  simp [evUpgrade_not_EV s j (by rw [hj]; intro hh; cases hh)]

/-- **C9.** A record the field parser cannot classify (`recordType =
unknown`) is silently skipped inside a full dump: deleting it from the
record list leaves the resulting state unchanged, so a malformed record
never causes the rest of its frame to be rejected.  (`processMessage`
itself is a total function of the embedding: it returns on every input by
construction, mirroring the throw-free source.) -/
theorem claim_C9_junk_record_isolated (s : StateManager) (g : Bool)
    (l1 l2 : List ParsedSegment) (j : ParsedSegment)
    (hj : j.recordType = RecordType.unknown) :
    processFullDump s (l1 ++ j :: l2) g = processFullDump s (l1 ++ l2) g := by
  unfold processFullDump
  rw [List.foldl_append, List.foldl_append, List.foldl_cons,
    processDumpSeg_unknown _ _ hj]

/-- Witness for C9 at a concrete dump: a junk record between two EV records
changes nothing. -/
theorem claim_C9_witness :
    junkSeg.recordType = RecordType.unknown
    ∧ processFullDump initialState ([evSeg] ++ junkSeg :: [evSeg]) true
        = processFullDump initialState ([evSeg] ++ [evSeg]) true :=
  ⟨rfl, claim_C9_junk_record_isolated initialState true [evSeg] [evSeg] junkSeg rfl⟩

-- ── C8: full dumps never emit events ──────────────────────────────────────

theorem processSub_F (s : StateManager) (parts : List Str)
    (h : endsWithChar (parts.headD []) 'F' = true) : (processSub s parts).2 = [] := by
  cases parts with
  | nil => simp [endsWithChar] at h
  | cons header rest =>
    have h' : endsWithChar header 'F' = true := h
    simp only [processSub, h', if_true]
    split
    · rfl
    · rfl

/-- **C8.** A payload all of whose sub-messages carry headers ending in `F`
(full dumps) produces an empty update list: full dumps never contribute
events to the result of `processMessage`, however much state they create or
clear. -/
theorem claim_C8_full_dumps_emit_nothing (s : StateManager) (raw : Str)
    (h : ∀ parts ∈ splitFrame raw, endsWithChar (parts.headD []) 'F' = true) :
    (processMessage s raw).2 = [] := by
  unfold processMessage
  have main : ∀ (l : List (List Str)), (∀ parts ∈ l, endsWithChar (parts.headD []) 'F' = true)
      → ∀ (s' : StateManager), (runSubs s' l).2 = [] := by
    intro l
    induction l with
    | nil => intro _ s'; rfl
    | cons p rest ih =>
      intro hl s'
      have h1 : (processSub s' p).2 = [] :=
        processSub_F s' p (hl p (List.mem_cons_self _ _))
      have h2 := ih (fun q hq => hl q (List.mem_cons_of_mem _ hq)) (processSub s' p).1
      show (processSub s' p).2 ++ (runSubs (processSub s' p).1 rest).2 = []
      rw [h1, h2]
      rfl
  exact main _ h s

/-- Witness for C8: the S1 payload consists of a single full-dump
sub-message and yields no updates. -/
theorem claim_C8_witness :
    (∀ parts ∈ splitFrame s1raw, endsWithChar (parts.headD []) 'F' = true)
    ∧ (processMessage initialState s1raw).2 = [] :=
  ⟨by decide, claim_C8_full_dumps_emit_nothing initialState s1raw (by decide)⟩

-- ── C10: deletes keep the reverse indexes; stale deltas are dropped ───────

/-- **C10.** (i) An event-scoped `D` delta removes the match from the match
table only: the resulting state is the old one with `mapDelete` applied to
`matches` — `fixtureToEvent`, `selectionInfo` and `itemToEvent` are left
exactly as they were — and a `delete` update is emitted.  (ii) A
selection-scoped delta whose fixture id still resolves through the (stale)
`fixtureToEvent` entry to an event id that is no longer in the match table
is silently dropped: the state is unchanged and no update is emitted. -/
theorem claim_C10_delete_scope_and_stale_drop :
    (∀ (s : StateManager) (seg : ParsedSegment) (cfg : SportConfig) (m : SportMatch),
      seg.header ≠ [] →
      (parseItemId (stripActionSuffix seg.header)).type = ItemType.event →
      SPORT_REGISTRY (parseItemId (stripActionSuffix seg.header)).categoryId = some cfg →
      mapGet s.«matches» (parseItemId (stripActionSuffix seg.header)).eventId = some m →
      seg.action = Action.D →
      ∃ u, processUpdate s seg
          = ({ s with «matches» :=
                mapDelete s.«matches» (parseItemId (stripActionSuffix seg.header)).eventId },
             some u)
        ∧ u.type = UpdateType.delete ∧ u.changes = [str "deleted"])
    ∧ (∀ (s : StateManager) (seg : ParsedSegment) (eid : Str),
      seg.header ≠ [] →
      (parseItemId (stripActionSuffix seg.header)).type = ItemType.selection →
      mapGet s.fixtureToEvent (parseItemId (stripActionSuffix seg.header)).fixtureId = some eid →
      mapGet s.«matches» eid = none →
      processUpdate s seg = (s, none)) := by
  constructor
  · intro s seg cfg m hne hty hreg hget hact
    have hemp : seg.header.isEmpty = false :=
      Bool.eq_false_iff.mpr (fun hh => hne (List.isEmpty_iff.mp hh))
    have key : processUpdate s seg
        = ({ s with «matches» :=
              mapDelete s.«matches» (parseItemId (stripActionSuffix seg.header)).eventId },
           some { type := UpdateType.delete,
                  eventId := (parseItemId (stripActionSuffix seg.header)).eventId,
                  match_ := (applyEventFields cfg seg.fields m).1,
                  changes := [str "deleted"] }) := by
      simp only [processUpdate, hemp, hty, hreg, hget, hact]
      simp
    exact ⟨_, key, rfl, rfl⟩
  · intro s seg eid hne hty hf2e hm
    have hemp : seg.header.isEmpty = false :=
      Bool.eq_false_iff.mpr (fun hh => hne (List.isEmpty_iff.mp hh))
    simp only [processUpdate, hemp, hty, hf2e, hm]
    simp

/-- Witness for C10: after the S1 dump, deleting match `190321250` keeps all
three reverse indexes, and the subsequent odds delta through the stale
fixture id is silently dropped. -/
theorem claim_C10_witness :
    (∃ u, processUpdate st1 c10dseg
        = ({ st1 with «matches» :=
              mapDelete st1.«matches» (parseItemId (stripActionSuffix c10dseg.header)).eventId },
           some u)
      ∧ u.type = UpdateType.delete ∧ u.changes = [str "deleted"])
    ∧ processUpdate st1del c10sseg = (st1del, none) :=
  ⟨claim_C10_delete_scope_and_stale_drop.1 st1 c10dseg tennisCfg c10match
      (by decide) (by decide) (by decide) (by decide) rfl,
   claim_C10_delete_scope_and_stale_drop.2 st1del c10sseg (str "190321250")
      (by decide) (by decide) (by decide) (by decide)⟩

-- ── C4 (amended): one odds event carrying one change per selection hit ────

theorem updateSelsIn_changes_length (t1 t2 : Str) (three : Bool) (selId od : Str)
    (su? : Option Str) (sels : List Selection) :
    (updateSelsIn t1 t2 three selId (some od) su? sels).2.length
      = (sels.filter (fun sel => sel.id == selId && sel.odds != od)).length := by
  induction sels with
  | nil => rfl
  | cons sel rest ih =>
    simp only [updateSelsIn, List.filter_cons]
    by_cases h1 : sel.id = selId
    · by_cases h2 : od ≠ sel.odds
      · simp only [if_pos h1]
        simp [h1, h2, ih]
        rw [if_neg (fun hh => h2 hh.symm)]
        simp [Nat.add_comm]
      · push_neg at h2
        subst h2
        simp [h1, ih]
    · have hp : (sel.id == selId && sel.odds != od) = false := by simp [h1]
      simp [h1, hp, ih]

theorem updateMarketsForSel_changes_length (t1 t2 : Str) (selId od : Str)
    (su? : Option Str) (mkts : List (Str × Market)) :
    (updateMarketsForSel t1 t2 selId (some od) su? mkts).2.length
      = (mkts.map (fun p => (p.2.selections.filter
          (fun sel => sel.id == selId && sel.odds != od)).length)).sum := by
  induction mkts with
  | nil => rfl
  | cons mk rest ih =>
    obtain ⟨k, market⟩ := mk
    simp only [updateMarketsForSel, List.map_cons, List.sum_cons, List.length_append,
      updateSelsIn_changes_length, ih]

/-- **C4, amended.** For a selection-scoped delta whose fixture id resolves
to a registered match, if the delta's `OD` value differs from the stored
odds of `k ≥ 1` selections matching the selection id, then processing it
emits exactly **one** `MatchUpdate` of type `odds` carrying exactly `k`
change entries — one entry per selection hit (the spec's "one per selection
hit" holds of the change strings, not of the number of events). -/
theorem claim_C4_amended (s : StateManager) (seg : ParsedSegment) (od eid : Str)
    (m : SportMatch)
    (hne : seg.header ≠ [])
    (hty : (parseItemId (stripActionSuffix seg.header)).type = ItemType.selection)
    (hod : getField seg.fields (str "OD") = some od)
    (hf2e : mapGet s.fixtureToEvent
      (parseItemId (stripActionSuffix seg.header)).fixtureId = some eid)
    (hm : mapGet s.«matches» eid = some m)
    (hk : 1 ≤ countOddsHits m (parseItemId (stripActionSuffix seg.header)).selectionId od) :
    ∃ (st : StateManager) (u : MatchUpdate),
      processUpdate s seg = (st, some u)
      ∧ u.type = UpdateType.odds
      ∧ u.changes.length
          = countOddsHits m (parseItemId (stripActionSuffix seg.header)).selectionId od := by
  have hemp : seg.header.isEmpty = false :=
    Bool.eq_false_iff.mpr (fun hh => hne (List.isEmpty_iff.mp hh))
  have hlen : (updateMarketsForSel m.team1 m.team2
      (parseItemId (stripActionSuffix seg.header)).selectionId (some od)
      (getField seg.fields (str "SU")) m.markets).2.length
      = countOddsHits m (parseItemId (stripActionSuffix seg.header)).selectionId od :=
    updateMarketsForSel_changes_length _ _ _ _ _ _
  have hnonempty : (updateMarketsForSel m.team1 m.team2
      (parseItemId (stripActionSuffix seg.header)).selectionId (some od)
      (getField seg.fields (str "SU")) m.markets).2.isEmpty = false := by
    cases hw : (updateMarketsForSel m.team1 m.team2
        (parseItemId (stripActionSuffix seg.header)).selectionId (some od)
        (getField seg.fields (str "SU")) m.markets).2 with
    | nil =>
      rw [hw] at hlen
      simp at hlen
      omega
    | cons a l => rfl
  have key : processUpdate s seg =
      ({ s with
          «matches» := mapSet s.«matches» eid
              ({ m with
                  markets := (updateMarketsForSel m.team1 m.team2
                      (parseItemId (stripActionSuffix seg.header)).selectionId (some od)
                      (getField seg.fields (str "SU")) m.markets).1 }) },
       some { type := UpdateType.odds, eventId := eid,
              match_ :=
                { m with
                    markets := (updateMarketsForSel m.team1 m.team2
                        (parseItemId (stripActionSuffix seg.header)).selectionId (some od)
                        (getField seg.fields (str "SU")) m.markets).1 },
              changes := (updateMarketsForSel m.team1 m.team2
                  (parseItemId (stripActionSuffix seg.header)).selectionId (some od)
                  (getField seg.fields (str "SU")) m.markets).2 }) := by
    simp only [processUpdate, hemp, hty, hod, hf2e, hm]
    simp [hnonempty]
  exact ⟨_, _, key, rfl, hlen⟩

/-- Witness for C4 (amended), at the two-hit scenario `c4st`/`c4seg`. -/
theorem claim_C4_witness :
    ∃ (st : StateManager) (u : MatchUpdate),
      processUpdate c4st c4seg = (st, some u)
      ∧ u.type = UpdateType.odds
      ∧ u.changes.length
          = countOddsHits c4match
              (parseItemId (stripActionSuffix c4seg.header)).selectionId (str "2/1") :=
  claim_C4_amended c4st c4seg (str "2/1") (str "1") c4match
    (by decide) (by decide) (by decide) (by decide) (by decide) (by decide)

-- ── C2 (amended): the conversion on well-formed and slash-free inputs ─────

theorem not_ws_of_digit (c : Char) (h : c.isDigit = true) : isWS c = false := by
  have h1 : c ≠ ' ' := fun hc => by subst hc; exact absurd h (by decide)
  have h2 : c ≠ '\t' := fun hc => by subst hc; exact absurd h (by decide)
  have h3 : c ≠ '\n' := fun hc => by subst hc; exact absurd h (by decide)
  have h4 : c ≠ '\r' := fun hc => by subst hc; exact absurd h (by decide)
  have h5 : c ≠ '\x0b' := fun hc => by subst hc; exact absurd h (by decide)
  have h6 : c ≠ '\x0c' := fun hc => by subst hc; exact absurd h (by decide)
  simp [isWS, h1, h2, h3, h4, h5, h6]

theorem takeWhile_all_eq (p : Char → Bool) (l : Str) (h : l.all p = true) :
    l.takeWhile p = l := by
  induction l with
  | nil => rfl
  | cons c r ih =>
    simp only [List.all_cons, Bool.and_eq_true] at h
    simp [List.takeWhile_cons, h.1, ih h.2]

theorem signSplit_cons (c : Char) (r : Str) (h1 : c ≠ '-') (h2 : c ≠ '+') :
    signSplit (c :: r) = (false, c :: r) := by
  unfold signSplit
  split
  · rename_i heq
    exact absurd (List.cons.inj heq).1 h1
  · rename_i heq
    exact absurd (List.cons.inj heq).1 h2
  · rfl

/-- `parseFloat` on a non-empty all-digit string is the digits' value. -/
theorem parseFloatJS_digits (ds : Str) (hne : ds ≠ []) (hd : ds.all Char.isDigit = true) :
    parseFloatJS ds = JSNum.fin (mkRat (Int.ofNat (digitsToNat ds)) 1) := by
  obtain ⟨c, r, rfl⟩ : ∃ c r, ds = c :: r := by
    cases ds with
    | nil => exact absurd rfl hne
    | cons c r => exact ⟨c, r, rfl⟩
  have hall := hd
  simp only [List.all_cons, Bool.and_eq_true] at hall
  have hc : c.isDigit = true := hall.1
  have hdropWS : (c :: r).dropWhile isWS = c :: r := by
    simp [List.dropWhile_cons, not_ws_of_digit c hc]
  have hcm : c ≠ '-' := fun hh => by subst hh; exact absurd hc (by decide)
  have hcp : c ≠ '+' := fun hh => by subst hh; exact absurd hc (by decide)
  have hci : c ≠ 'I' := fun hh => by subst hh; exact absurd hc (by decide)
  have hinf : strHasPre (str "Infinity") (c :: r) = false := by
    show ('I' == c && strHasPre (str "nfinity") r) = false
    rw [beq_eq_false_iff_ne.mpr (fun hh => hci hh.symm), Bool.false_and]
  have h0 : digitsToNat [] = 0 := rfl
  unfold parseFloatJS
  simp only [hdropWS, signSplit_cons c r hcm hcp, hinf,
    takeWhile_all_eq Char.isDigit (c :: r) hd, List.drop_length, h0,
    Bool.false_eq_true, if_false, List.isEmpty_cons, Bool.false_and,
    pow_zero, mul_one, add_zero]
  norm_num

theorem splitOnChar_ne_nil (c : Char) (s : Str) : splitOnChar c s ≠ [] := by
  cases s with
  | nil => simp [splitOnChar]
  | cons x xs =>
    simp only [splitOnChar]
    split
    · simp
    · split
      · simp
      · simp

theorem splitOnChar_append_sep (c : Char) (xs ys : Str) :
    splitOnChar c (xs ++ c :: ys) = splitOnChar c xs ++ splitOnChar c ys := by
  induction xs with
  | nil => simp [splitOnChar]
  | cons x r ih =>
    show splitOnChar c (x :: (r ++ c :: ys)) = splitOnChar c (x :: r) ++ splitOnChar c ys
    simp only [splitOnChar, ih]
    by_cases h : x = c
    · simp [h]
    · simp only [if_neg h]
      cases hr : splitOnChar c r with
      | nil => exact absurd hr (splitOnChar_ne_nil c r)
      | cons hd tl => simp

theorem splitOnChar_eq_single (c : Char) (xs : Str) (h : ∀ x ∈ xs, x ≠ c) :
    splitOnChar c xs = [xs] := by
  induction xs with
  | nil => rfl
  | cons x r ih =>
    have hx : x ≠ c := h x (List.mem_cons_self _ _)
    have hr := ih (fun y hy => h y (List.mem_cons_of_mem _ hy))
    simp [splitOnChar, hx, hr]

theorem no_slash_of_digits (xs : Str) (h : xs.all Char.isDigit = true) :
    ∀ x ∈ xs, x ≠ '/' := by
  intro x hx hc
  subst hc
  rw [List.all_eq_true] at h
  exact absurd (h _ hx) (by decide)

theorem ratAdd_eq (a b : ℚ) : ratAdd a b = a + b := by
  unfold ratAdd
  rw [Rat.mkRat_eq_div]
  push_cast
  have hA : ((a.den : ℚ)) ≠ 0 := Nat.cast_ne_zero.mpr a.den_ne_zero
  have hB : ((b.den : ℚ)) ≠ 0 := Nat.cast_ne_zero.mpr b.den_ne_zero
  conv_rhs => rw [← Rat.num_div_den a, ← Rat.num_div_den b]
  rw [div_add_div _ _ hA hB]
  ring_nf

theorem ratDiv_eq (a b : ℚ) : ratDiv a b = a / b := by
  unfold ratDiv
  rcases eq_or_ne b 0 with hb0 | hb0
  · subst hb0
    norm_num
  · have hbnum : b.num ≠ 0 := Rat.num_ne_zero.mpr hb0
    have hA : ((a.den : ℚ)) ≠ 0 := Nat.cast_ne_zero.mpr a.den_ne_zero
    have hB : ((b.den : ℚ)) ≠ 0 := Nat.cast_ne_zero.mpr b.den_ne_zero
    have hBn : ((b.num : ℚ)) ≠ 0 := Int.cast_ne_zero.mpr hbnum
    have frac : ((a.num : ℚ) * b.den) / ((a.den : ℚ) * b.num) = a / b := by
      conv_rhs => rw [← Rat.num_div_den a, ← Rat.num_div_den b]
      field_simp
    have key : ∀ (n : ℤ) (d : ℕ), ((d : ℚ)) ≠ 0 →
        (n : ℚ) * ((a.den : ℚ) * b.num) = ((a.num : ℚ) * b.den) * d →
        mkRat n d = a / b := by
      intro n d hd hcross
      rw [Rat.mkRat_eq_div, ← frac, div_eq_div_iff hd (mul_ne_zero hA hBn)]
      exact hcross
    split
    · rename_i hpos
      have hbpos : 0 < b.num := lt_of_le_of_ne hpos (Ne.symm hbnum)
      have ht : ((b.num.toNat : ℕ) : ℚ) = (b.num : ℚ) := by
        rw [← Int.cast_natCast]
        exact congrArg _ (Int.toNat_of_nonneg hpos)
      refine key _ _ ?_ ?_
      · push_cast
        rw [ht]
        exact mul_ne_zero hA hBn
      · push_cast
        rw [ht]
        try ring
    · rename_i hneg
      push_neg at hneg
      have ht : (((-b.num).toNat : ℕ) : ℚ) = -(b.num : ℚ) := by
        rw [← Int.cast_natCast]
        rw [Int.toNat_of_nonneg (by omega : (0 : ℤ) ≤ -b.num)]
        push_cast
        try ring
      refine key _ _ ?_ ?_
      · push_cast
        rw [ht]
        refine mul_ne_zero hA ?_
        simpa using hBn
      · push_cast
        rw [ht]
        try ring

theorem fractionalToDecimal_split (ns ds : Str) (hn : ns ≠ [])
    (hnd : ns.all Char.isDigit = true) (hd : ds ≠ []) (hdd : ds.all Char.isDigit = true) :
    fractionalToDecimal (ns ++ '/' :: ds)
      = (if ratEqZero (mkRat (Int.ofNat (digitsToNat ds)) 1) then JSNum.fin (mkRat 0 1)
         else ((JSNum.fin (mkRat (Int.ofNat (digitsToNat ns)) 1)).div
                (JSNum.fin (mkRat (Int.ofNat (digitsToNat ds)) 1))).add1) := by
  unfold fractionalToDecimal
  have hcontains : (ns ++ '/' :: ds).contains '/' = true := by simp
  have hempty : (ns ++ '/' :: ds).isEmpty = false := by cases ns <;> rfl
  simp only [hempty, hcontains, Bool.not_true, Bool.false_or, Bool.false_eq_true, if_false]
  rw [splitOnChar_append_sep, splitOnChar_eq_single _ _ (no_slash_of_digits ns hnd),
    splitOnChar_eq_single _ _ (no_slash_of_digits ds hdd)]
  simp only [List.singleton_append]
  rw [parseFloatJS_digits ns hn hnd, parseFloatJS_digits ds hd hdd]
  rfl

theorem fractionalToDecimal_digits_pos (ns ds : Str) (hn : ns ≠ [])
    (hnd : ns.all Char.isDigit = true) (hd : ds ≠ []) (hdd : ds.all Char.isDigit = true)
    (hds0 : digitsToNat ds ≠ 0) :
    fractionalToDecimal (ns ++ '/' :: ds)
      = JSNum.fin ((digitsToNat ns : ℚ) / (digitsToNat ds : ℚ) + 1) := by
  rw [fractionalToDecimal_split ns ds hn hnd hd hdd]
  have hz : ratEqZero (mkRat (Int.ofNat (digitsToNat ds)) 1) = false := by
    unfold ratEqZero
    rw [Rat.mkRat_one, Rat.num_intCast]
    exact beq_eq_false_iff_ne.mpr (fun hh => hds0 (Int.ofNat_eq_zero.mp hh))
  rw [hz]
  simp only [Bool.false_eq_true, if_false]
  show JSNum.add1 (if ratEqZero (mkRat (Int.ofNat (digitsToNat ds)) 1) then _ else _) = _
  rw [hz]
  simp only [Bool.false_eq_true, if_false]
  show JSNum.fin (ratAdd (ratDiv (mkRat (Int.ofNat (digitsToNat ns)) 1)
    (mkRat (Int.ofNat (digitsToNat ds)) 1)) (mkRat 1 1)) = _
  congr 1
  rw [ratAdd_eq, ratDiv_eq, Rat.mkRat_one, Rat.mkRat_one, Rat.mkRat_one]
  push_cast [Int.ofNat_eq_natCast]
  ring

theorem fractionalToDecimal_digits_zero (ns ds : Str) (hn : ns ≠ [])
    (hnd : ns.all Char.isDigit = true) (hd : ds ≠ []) (hdd : ds.all Char.isDigit = true)
    (hds0 : digitsToNat ds = 0) :
    fractionalToDecimal (ns ++ '/' :: ds) = JSNum.fin 0 := by
  rw [fractionalToDecimal_split ns ds hn hnd hd hdd, hds0]
  norm_num [ratEqZero, Rat.mkRat_one]

theorem fractionalToDecimal_no_slash (s : Str) (h : s.contains '/' = false) :
    fractionalToDecimal s = JSNum.fin 0 := by
  unfold fractionalToDecimal
  rw [h]
  norm_num [Rat.mkRat_one]

/-- **C2, amended.** `fractionalToDecimal` returns `n/d + 1` on every
well-formed `"n/d"` (digit strings, denominator of non-zero value), `0`
when the denominator's value is zero, and `0` whenever the input contains
no `/` at all (which covers the absent/empty case).  For other malformed
inputs the result follows JS `parseFloat` coercion of the two parts around
the first `/` and need not be `0` (see the counterexample). -/
theorem claim_C2_amended :
    (∀ ns ds : Str, ns ≠ [] → ds ≠ [] →
      ns.all Char.isDigit = true → ds.all Char.isDigit = true →
      (digitsToNat ds ≠ 0 →
        fractionalToDecimal (ns ++ '/' :: ds)
          = JSNum.fin ((digitsToNat ns : ℚ) / (digitsToNat ds : ℚ) + 1))
      ∧ (digitsToNat ds = 0 →
        fractionalToDecimal (ns ++ '/' :: ds) = JSNum.fin 0))
    ∧ (∀ s : Str, s.contains '/' = false → fractionalToDecimal s = JSNum.fin 0) :=
  ⟨fun ns ds hn hd hnd hdd =>
    ⟨fractionalToDecimal_digits_pos ns ds hn hnd hd hdd,
     fractionalToDecimal_digits_zero ns ds hn hnd hd hdd⟩,
   fractionalToDecimal_no_slash⟩

/-- Witness for C2 (amended): `"9/2"` gives `9/2 + 1 = 5.5`, `"5/0"` and
the slash-free `"abc"` give `0`. -/
theorem claim_C2_witness :
    fractionalToDecimal (str "9" ++ '/' :: str "2")
      = JSNum.fin ((digitsToNat (str "9") : ℚ) / (digitsToNat (str "2") : ℚ) + 1)
    ∧ fractionalToDecimal (str "5" ++ '/' :: str "0") = JSNum.fin 0
    ∧ fractionalToDecimal (str "abc") = JSNum.fin 0 :=
  ⟨(claim_C2_amended.1 (str "9") (str "2") (by decide) (by decide) (by decide)
      (by decide)).1 (by decide),
   (claim_C2_amended.1 (str "5") (str "0") (by decide) (by decide) (by decide)
      (by decide)).2 (by decide),
   claim_C2_amended.2 (str "abc") (by decide)⟩

-- ── C6 (amended): concatenation along control-byte boundaries ─────────────

theorem cleanAndSplit_append (A B : Str)
    (hB : B.head? = some '\x15' ∨ B.head? = some '\x14') :
    cleanAndSplit (A ++ B) = cleanAndSplit A ++ cleanAndSplit B := by
  obtain ⟨b, B', rfl⟩ : ∃ b B', B = b :: B' := by
    cases B with
    | nil => rcases hB with h | h <;> simp at h
    | cons b B' => exact ⟨b, B', rfl⟩
  have hb : b = '\x15' ∨ b = '\x14' := by
    rcases hB with h | h
    · exact Or.inl (Option.some_inj.mp h)
    · exact Or.inr (Option.some_inj.mp h)
  have hnb : normChar b = some '\x1e' := by
    rcases hb with rfl | rfl <;> rfl
  have hsplit : ∀ l : List Char, splitOnChar '\x1e' ('\x1e' :: l)
      = [] :: splitOnChar '\x1e' l := by
    intro l
    simp [splitOnChar]
  simp only [cleanAndSplit, List.filterMap_append, List.filterMap_cons, hnb,
    splitOnChar_append_sep, List.filter_append, hsplit]
  simp

theorem splitFrame_append (A B : Str)
    (hA : 1 < (cleanAndSplit A).length) (hB2 : 1 < (cleanAndSplit B).length)
    (hB : B.head? = some '\x15' ∨ B.head? = some '\x14') :
    splitFrame (A ++ B) = splitFrame A ++ splitFrame B := by
  have hAB : cleanAndSplit (A ++ B) = cleanAndSplit A ++ cleanAndSplit B :=
    cleanAndSplit_append A B hB
  have hlen : 1 < (cleanAndSplit (A ++ B)).length := by
    rw [hAB, List.length_append]
    omega
  unfold splitFrame
  rw [if_pos hlen, if_pos hA, if_pos hB2, hAB, List.map_append]

theorem runSubs_append (s : StateManager) (l1 l2 : List (List Str)) :
    runSubs s (l1 ++ l2)
      = ((runSubs (runSubs s l1).1 l2).1,
         (runSubs s l1).2 ++ (runSubs (runSubs s l1).1 l2).2) := by
  induction l1 generalizing s with
  | nil => simp [runSubs]
  | cons p rest ih =>
    have e1 : ∀ (t : StateManager) (l : List (List Str)), runSubs t (p :: l)
        = ((runSubs (processSub t p).1 l).1,
           (processSub t p).2 ++ (runSubs (processSub t p).1 l).2) := fun t l => rfl
    simp only [List.cons_append, e1, ih]
    simp [List.append_assoc]

/-- **C6, amended.** Concatenation respects processing when the payloads are
framed by control bytes: if `A` and `B` each split into at least two
control-byte chunks and `B` begins with a sub-message start byte
(0x15 or 0x14), then processing `A ++ B` equals processing `A` and then
`B` — the final state coincides and the update list is the concatenation.
(The unrestricted claim fails: see the counterexample.) -/
theorem claim_C6_amended (s : StateManager) (A B : Str)
    (hA : 1 < (cleanAndSplit A).length) (hB2 : 1 < (cleanAndSplit B).length)
    (hB : B.head? = some '\x15' ∨ B.head? = some '\x14') :
    processMessage s (A ++ B)
      = ((processMessage (processMessage s A).1 B).1,
         (processMessage s A).2 ++ (processMessage (processMessage s A).1 B).2) := by
  unfold processMessage
  rw [splitFrame_append A B hA hB2 hB, runSubs_append]

/-- Witness for C6 (amended) on a concrete control-byte framed pair. -/
theorem claim_C6_witness :
    processMessage initialState (c6wA ++ c6wB)
      = ((processMessage (processMessage initialState c6wA).1 c6wB).1,
         (processMessage initialState c6wA).2
           ++ (processMessage (processMessage initialState c6wA).1 c6wB).2) :=
  claim_C6_amended initialState c6wA c6wB (by decide) (by decide) (by decide)

-- ── Shared structural lemmas about the state-manager steps ────────────────

theorem evUpgrade_maps (s : StateManager) (seg : ParsedSegment) :
    (evUpgrade s seg).«matches» = s.«matches»
    ∧ (evUpgrade s seg).fixtureToEvent = s.fixtureToEvent
    ∧ (evUpgrade s seg).selectionInfo = s.selectionInfo
    ∧ (evUpgrade s seg).itemToEvent = s.itemToEvent := by
  unfold evUpgrade
  repeat' split
  all_goals exact ⟨rfl, rfl, rfl, rfl⟩

theorem applySS_proj (cfg : SportConfig) (f : Fields) (m0 : SportMatch) :
    (applySS cfg f m0).1.fixtureId = m0.fixtureId
    ∧ (applySS cfg f m0).1.eventId = m0.eventId
    ∧ (applySS cfg f m0).1.sportId = m0.sportId
    ∧ (applySS cfg f m0).1.serving = m0.serving := by
  unfold applySS
  repeat' split
  all_goals exact ⟨rfl, rfl, rfl, rfl⟩

theorem applyXP_proj (cfg : SportConfig) (f : Fields) (m1 : SportMatch) :
    (applyXP cfg f m1).1.fixtureId = m1.fixtureId
    ∧ (applyXP cfg f m1).1.eventId = m1.eventId
    ∧ (applyXP cfg f m1).1.sportId = m1.sportId
    ∧ (applyXP cfg f m1).1.serving = m1.serving := by
  unfold applyXP
  repeat' split
  all_goals exact ⟨rfl, rfl, rfl, rfl⟩

theorem applyTU_proj (f : Fields) (m3 : SportMatch) :
    (applyTU f m3).fixtureId = m3.fixtureId
    ∧ (applyTU f m3).eventId = m3.eventId
    ∧ (applyTU f m3).sportId = m3.sportId
    ∧ (applyTU f m3).serving = m3.serving := by
  unfold applyTU
  repeat' split
  all_goals exact ⟨rfl, rfl, rfl, rfl⟩

theorem applyES_proj (f : Fields) (m4 : SportMatch) :
    (applyES f m4).fixtureId = m4.fixtureId
    ∧ (applyES f m4).eventId = m4.eventId
    ∧ (applyES f m4).sportId = m4.sportId
    ∧ (applyES f m4).serving = m4.serving := by
  unfold applyES
  repeat' split
  all_goals exact ⟨rfl, rfl, rfl, rfl⟩

theorem applyPI_proj3 (cfg : SportConfig) (f : Fields) (m2 : SportMatch) :
    (applyPI cfg f m2).1.fixtureId = m2.fixtureId
    ∧ (applyPI cfg f m2).1.eventId = m2.eventId
    ∧ (applyPI cfg f m2).1.sportId = m2.sportId := by
  unfold applyPI
  repeat' split
  all_goals exact ⟨rfl, rfl, rfl⟩

theorem parseServing_cases (pi : Str) : parseServing pi = 1 ∨ parseServing pi = 2 := by
  unfold parseServing
  split
  · exact Or.inl rfl
  · by_cases hh : (splitOnChar ',' pi).head?.getD [] = str "1"
    · exact Or.inl (by simp [hh])
    · exact Or.inr (by simp [hh])

theorem applyPI_serving (cfg : SportConfig) (f : Fields) (m2 : SportMatch) :
    (applyPI cfg f m2).1.serving = m2.serving
    ∨ (applyPI cfg f m2).1.serving = 1
    ∨ (applyPI cfg f m2).1.serving = 2 := by
  unfold applyPI
  repeat' split
  all_goals try exact Or.inl rfl
  all_goals exact Or.inr (parseServing_cases _)

theorem applyEventFields_proj (cfg : SportConfig) (f : Fields) (m0 : SportMatch) :
    (applyEventFields cfg f m0).1.fixtureId = m0.fixtureId
    ∧ (applyEventFields cfg f m0).1.eventId = m0.eventId
    ∧ (applyEventFields cfg f m0).1.sportId = m0.sportId
    ∧ ((applyEventFields cfg f m0).1.serving = m0.serving
       ∨ (applyEventFields cfg f m0).1.serving = 1
       ∨ (applyEventFields cfg f m0).1.serving = 2) := by
  have hES := applyES_proj f (applyTU f (applyPI cfg f (applyXP cfg f (applySS cfg f m0).1).1).1)
  have hTU := applyTU_proj f (applyPI cfg f (applyXP cfg f (applySS cfg f m0).1).1).1
  have hPI := applyPI_proj3 cfg f (applyXP cfg f (applySS cfg f m0).1).1
  have hPIs := applyPI_serving cfg f (applyXP cfg f (applySS cfg f m0).1).1
  have hXP := applyXP_proj cfg f (applySS cfg f m0).1
  have hSS := applySS_proj cfg f m0
  have he : (applyEventFields cfg f m0).1
      = applyES f (applyTU f (applyPI cfg f (applyXP cfg f (applySS cfg f m0).1).1).1) := rfl
  rw [he]
  refine ⟨?_, ?_, ?_, ?_⟩
  · rw [hES.1, hTU.1, hPI.1, hXP.1, hSS.1]
  · rw [hES.2.1, hTU.2.1, hPI.2.1, hXP.2.1, hSS.2.1]
  · rw [hES.2.2.1, hTU.2.2.1, hPI.2.2, hXP.2.2.1, hSS.2.2.1]
  · rw [hES.2.2.2, hTU.2.2.2]
    rcases hPIs with h | h | h
    · rw [h, hXP.2.2.2, hSS.2.2.2]
      exact Or.inl rfl
    · exact Or.inr (Or.inl h)
    · exact Or.inr (Or.inr h)

theorem isSome_mapGet_mapSet {α : Type} (m : List (Str × α)) (a k : Str) (v : α)
    (h : (mapGet m k).isSome = true) : (mapGet (mapSet m a v) k).isSome = true := by
  rw [mapGet_mapSet]
  split
  · rfl
  · exact h

-- ── C5 (amended): the fixture reverse index keeps every non-empty key ─────

theorem fki_of_eq (s t : StateManager) (h : FixtureKeyInv s)
    (hm : t.«matches» = s.«matches») (hf : t.fixtureToEvent = s.fixtureToEvent) :
    FixtureKeyInv t := by
  unfold FixtureKeyInv at *
  rw [hm, hf]
  exact h

theorem fki_insert (s t : StateManager) (h : FixtureKeyInv s) (eid : Str) (m : SportMatch)
    (hm : t.«matches» = mapSet s.«matches» eid m)
    (hf : (m.fixtureId = [] ∧ t.fixtureToEvent = s.fixtureToEvent)
          ∨ t.fixtureToEvent = mapSet s.fixtureToEvent m.fixtureId eid) :
    FixtureKeyInv t := by
  intro p hp
  rw [hm] at hp
  rcases mem_mapSet hp with rfl | hpm
  · rcases hf with ⟨hemp, _⟩ | hfe
    · exact Or.inl hemp
    · right
      rw [hfe, mapGet_mapSet]
      simp
  · rcases h p hpm with hl | hr
    · exact Or.inl hl
    · right
      rcases hf with ⟨_, hfe⟩ | hfe
      · rw [hfe]
        exact hr
      · rw [hfe]
        exact isSome_mapGet_mapSet _ _ _ _ hr

theorem fki_set_existing (s t : StateManager) (h : FixtureKeyInv s) (k : Str)
    (m m' : SportMatch) (hget : mapGet s.«matches» k = some m)
    (hm : t.«matches» = mapSet s.«matches» k m')
    (hf : t.fixtureToEvent = s.fixtureToEvent)
    (hfx : m'.fixtureId = m.fixtureId) : FixtureKeyInv t := by
  intro p hp
  rw [hm] at hp
  rcases mem_mapSet hp with rfl | hpm
  · rcases h (k, m) (mem_of_mapGet_eq_some hget) with hl | hr
    · left
      show m'.fixtureId = []
      rw [hfx]
      exact hl
    · right
      show (mapGet t.fixtureToEvent m'.fixtureId).isSome = true
      rw [hf, hfx]
      exact hr
  · rcases h p hpm with hl | hr
    · exact Or.inl hl
    · right
      rw [hf]
      exact hr

theorem fki_delete (s t : StateManager) (h : FixtureKeyInv s) (k : Str)
    (hm : t.«matches» = mapDelete s.«matches» k)
    (hf : t.fixtureToEvent = s.fixtureToEvent) : FixtureKeyInv t := by
  intro p hp
  rw [hm] at hp
  rcases h p (mem_mapDelete hp) with hl | hr
  · exact Or.inl hl
  · right
    rw [hf]
    exact hr

theorem fki_processDumpSeg (s : StateManager) (seg : ParsedSegment)
    (h : FixtureKeyInv s) : FixtureKeyInv (processDumpSeg s seg) := by
  have hev := evUpgrade_maps s seg
  have hevInv : FixtureKeyInv (evUpgrade s seg) := fki_of_eq _ _ h hev.1 hev.2.1
  simp only [processDumpSeg]
  split
  · exact fki_of_eq _ _ h rfl rfl
  · split
    · exact hevInv
    · split
      · exact fki_of_eq _ _ hevInv rfl rfl
      · split
        · split
          · exact hevInv
          · split
            · exact hevInv
            · split
              · exact fki_insert _ _ hevInv _ _ rfl (Or.inr rfl)
              · exact fki_insert _ _ hevInv _ _ rfl (Or.inl ⟨by
                  rename_i hfe
                  simpa using hfe, rfl⟩)
        · split
          · split
            · exact hevInv
            · rename_i m hget
              exact fki_set_existing _ _ hevInv _ m _ hget rfl rfl rfl
          · split
            · split
              · exact hevInv
              · rename_i m hget
                split
                · split
                  · exact fki_set_existing _ _ hevInv _ m _ hget rfl rfl rfl
                  · exact fki_set_existing _ _ hevInv _ m _ hget rfl rfl rfl
                · exact fki_set_existing _ _ hevInv _ m _ hget rfl rfl rfl
            · exact hevInv

theorem fki_processFullDump (s : StateManager) (segs : List ParsedSegment) (g : Bool)
    (h : FixtureKeyInv s) : FixtureKeyInv (processFullDump s segs g) := by
  have main : ∀ (l : List ParsedSegment) (t : StateManager), FixtureKeyInv t →
      FixtureKeyInv (l.foldl processDumpSeg t) := by
    intro l
    induction l with
    | nil => exact fun t ht => ht
    | cons a l ih => exact fun t ht => ih _ (fki_processDumpSeg t a ht)
  have h1 : FixtureKeyInv (dumpResetContext s) := fki_of_eq _ _ h rfl rfl
  have h2 : FixtureKeyInv
      (if g then dumpClear (dumpResetContext s) else dumpResetContext s) := by
    split
    · intro p hp
      cases hp
    · exact h1
  exact main segs _ h2

theorem fki_processUpdate (s : StateManager) (seg : ParsedSegment)
    (h : FixtureKeyInv s) : FixtureKeyInv (processUpdate s seg).1 := by
  simp only [processUpdate]
  split
  · exact h
  · split
    · split
      · exact h
      · split
        · exact h
        · rename_i m0 hget
          split
          · exact fki_delete _ _ h _ rfl rfl
          · split
            · exact fki_set_existing _ _ h _ m0 _ hget rfl rfl
                (applyEventFields_proj _ _ _).1
            · exact fki_set_existing _ _ h _ m0 _ hget rfl rfl
                (applyEventFields_proj _ _ _).1
    · split
      · split
        · exact h
        · split
          · exact h
          · rename_i m hm
            split
            · exact fki_set_existing _ _ h _ m _ hm rfl rfl rfl
            · exact fki_set_existing _ _ h _ m _ hm rfl rfl rfl
      · exact h

theorem fki_processSub (s : StateManager) (parts : List Str)
    (h : FixtureKeyInv s) : FixtureKeyInv (processSub s parts).1 := by
  simp only [processSub]
  split
  · exact h
  · split
    · exact h
    · split
      · exact fki_processFullDump _ _ _ h
      · split
        · exact fki_processUpdate _ _ h
        · exact h

theorem fki_runSubs (s : StateManager) (l : List (List Str))
    (h : FixtureKeyInv s) : FixtureKeyInv (runSubs s l).1 := by
  induction l generalizing s with
  | nil => exact h
  | cons p rest ih =>
    have e1 : (runSubs s (p :: rest)).1 = (runSubs (processSub s p).1 rest).1 := rfl
    rw [e1]
    exact ih _ (fki_processSub s p h)

/-- **C5, amended.** In every state reachable from a fresh `StateManager`,
every stored match has an empty fixture id or a fixture id that is present
in `fixtureToEvent` (it is reachable through the reverse index).  The
original claim's stronger conclusion — that the entry maps back to the
match's own event id — fails when two events register the same fixture id
(see the counterexample); the key's mere presence is what the code
maintains. -/
theorem claim_C5_amended (s : StateManager) (h : Reachable s) : FixtureKeyInv s := by
  induction h with
  | init =>
    intro p hp
    cases hp
  | step s' raw _ ih =>
    show FixtureKeyInv (runSubs s' (splitFrame raw)).1
    exact fki_runSubs _ _ ih

/-- Witness for C5 (amended): the two-events-one-fixture state `c5st` (the
very counterexample to the unamended claim) satisfies the weaker invariant. -/
theorem claim_C5_witness : FixtureKeyInv c5st :=
  claim_C5_amended c5st (Reachable.step _ _ Reachable.init)

-- ── C7 (amended): serving values are 1 or 2 whenever the sport serves ─────

theorem servingOK_of (m m' : SportMatch) (hok : servingOK m = true)
    (hsid : m'.sportId = m.sportId)
    (hserv : m'.serving = m.serving ∨ m'.serving = 1 ∨ m'.serving = 2) :
    servingOK m' = true := by
  unfold servingOK at *
  rw [hsid]
  cases hreg : SPORT_REGISTRY m.sportId with
  | none =>
    rw [hreg] at hok
    exact absurd hok (by simp)
  | some cfg =>
    rw [hreg] at hok
    rcases hserv with h | h | h
    · rw [h]
      exact hok
    · simp [h]
    · simp [h]

theorem servingOK_buildMatch (st : StateManager) (f : Fields) (eid sportId : Str)
    (cfg : SportConfig) (hreg : SPORT_REGISTRY sportId = some cfg) :
    servingOK (buildMatch st f eid sportId cfg) = true := by
  unfold servingOK buildMatch
  simp only [hreg]
  cases hs : cfg.hasServing
  · simp [hs]
  · simp only [hs, if_true, Bool.not_true, Bool.false_or]
    rcases parseServing_cases ((getField f (str "PI")).getD []) with h | h <;> simp [h]

theorem svi_of_eq (s t : StateManager) (h : ServingInv s)
    (hm : t.«matches» = s.«matches») : ServingInv t := by
  unfold ServingInv at *
  rw [hm]
  exact h

theorem svi_insert (s t : StateManager) (h : ServingInv s) (eid : Str) (m : SportMatch)
    (hm : t.«matches» = mapSet s.«matches» eid m) (hok : servingOK m = true) :
    ServingInv t := by
  intro p hp
  rw [hm] at hp
  rcases mem_mapSet hp with rfl | hpm
  · exact hok
  · exact h p hpm

theorem svi_set_existing (s t : StateManager) (h : ServingInv s) (k : Str)
    (m m' : SportMatch) (hget : mapGet s.«matches» k = some m)
    (hm : t.«matches» = mapSet s.«matches» k m')
    (hsid : m'.sportId = m.sportId)
    (hserv : m'.serving = m.serving ∨ m'.serving = 1 ∨ m'.serving = 2) :
    ServingInv t := by
  intro p hp
  rw [hm] at hp
  rcases mem_mapSet hp with rfl | hpm
  · exact servingOK_of m _ (h (k, m) (mem_of_mapGet_eq_some hget)) hsid hserv
  · exact h p hpm

theorem svi_delete (s t : StateManager) (h : ServingInv s) (k : Str)
    (hm : t.«matches» = mapDelete s.«matches» k) : ServingInv t := by
  intro p hp
  rw [hm] at hp
  exact h p (mem_mapDelete hp)

theorem svi_processDumpSeg (s : StateManager) (seg : ParsedSegment)
    (h : ServingInv s) : ServingInv (processDumpSeg s seg) := by
  have hev := evUpgrade_maps s seg
  have hevInv : ServingInv (evUpgrade s seg) := svi_of_eq _ _ h hev.1
  simp only [processDumpSeg]
  split
  · exact svi_of_eq _ _ h rfl
  · split
    · exact hevInv
    · split
      · exact svi_of_eq _ _ hevInv rfl
      · split
        · split
          · exact hevInv
          · split
            · exact hevInv
            · rename_i cfg hreg
              split
              · exact svi_insert _ _ hevInv _ _ rfl (servingOK_buildMatch _ _ _ _ _ hreg)
              · exact svi_insert _ _ hevInv _ _ rfl (servingOK_buildMatch _ _ _ _ _ hreg)
        · split
          · split
            · exact hevInv
            · rename_i m hget
              exact svi_set_existing _ _ hevInv _ m _ hget rfl rfl (Or.inl rfl)
          · split
            · split
              · exact hevInv
              · rename_i m hget
                split
                · split
                  · exact svi_set_existing _ _ hevInv _ m _ hget rfl rfl (Or.inl rfl)
                  · exact svi_set_existing _ _ hevInv _ m _ hget rfl rfl (Or.inl rfl)
                · exact svi_set_existing _ _ hevInv _ m _ hget rfl rfl (Or.inl rfl)
            · exact hevInv

theorem svi_processFullDump (s : StateManager) (segs : List ParsedSegment) (g : Bool)
    (h : ServingInv s) : ServingInv (processFullDump s segs g) := by
  have main : ∀ (l : List ParsedSegment) (t : StateManager), ServingInv t →
      ServingInv (l.foldl processDumpSeg t) := by
    intro l
    induction l with
    | nil => exact fun t ht => ht
    | cons a l ih => exact fun t ht => ih _ (svi_processDumpSeg t a ht)
  have h1 : ServingInv (dumpResetContext s) := svi_of_eq _ _ h rfl
  have h2 : ServingInv
      (if g then dumpClear (dumpResetContext s) else dumpResetContext s) := by
    split
    · intro p hp
      cases hp
    · exact h1
  exact main segs _ h2

theorem svi_processUpdate (s : StateManager) (seg : ParsedSegment)
    (h : ServingInv s) : ServingInv (processUpdate s seg).1 := by
  simp only [processUpdate]
  split
  · exact h
  · split
    · split
      · exact h
      · split
        · exact h
        · rename_i m0 hget
          split
          · exact svi_delete _ _ h _ rfl
          · split
            · exact svi_set_existing _ _ h _ m0 _ hget rfl
                (applyEventFields_proj _ _ _).2.2.1 (applyEventFields_proj _ _ _).2.2.2
            · exact svi_set_existing _ _ h _ m0 _ hget rfl
                (applyEventFields_proj _ _ _).2.2.1 (applyEventFields_proj _ _ _).2.2.2
    · split
      · split
        · exact h
        · split
          · exact h
          · rename_i m hm
            split
            · exact svi_set_existing _ _ h _ m _ hm rfl rfl (Or.inl rfl)
            · exact svi_set_existing _ _ h _ m _ hm rfl rfl (Or.inl rfl)
      · exact h

theorem svi_processSub (s : StateManager) (parts : List Str)
    (h : ServingInv s) : ServingInv (processSub s parts).1 := by
  simp only [processSub]
  split
  · exact h
  · split
    · exact h
    · split
      · exact svi_processFullDump _ _ _ h
      · split
        · exact svi_processUpdate _ _ h
        · exact h

theorem svi_runSubs (s : StateManager) (l : List (List Str))
    (h : ServingInv s) : ServingInv (runSubs s l).1 := by
  induction l generalizing s with
  | nil => exact h
  | cons p rest ih =>
    have e1 : (runSubs s (p :: rest)).1 = (runSubs (processSub s p).1 rest).1 := rfl
    rw [e1]
    exact ih _ (svi_processSub s p h)

/-- **C7, amended.** In every reachable state, every stored match's sport is
registered and, whenever that sport has a serving indicator, the serving
value is 1 or 2; moreover a match is *created* with `serving = 0` whenever
its sport has no serving indicator.  The original claim's converse — that a
no-serving sport's match keeps `serving = 0` forever — fails, because an
event-scoped delta whose item id carries a different, serving-capable
category can overwrite it (see the counterexample). -/
theorem claim_C7_amended :
    (∀ s : StateManager, Reachable s → ServingInv s)
    ∧ (∀ (st : StateManager) (f : Fields) (eid sportId : Str) (cfg : SportConfig),
        cfg.hasServing = false → (buildMatch st f eid sportId cfg).serving = 0) := by
  constructor
  · intro s h
    induction h with
    | init =>
      intro p hp
      cases hp
    | step s' raw _ ih =>
      show ServingInv (runSubs s' (splitFrame raw)).1
      exact svi_runSubs _ _ ih
  · intro st f eid sportId cfg hs
    simp [buildMatch, hs]

/-- Witness for C7 (amended): the invariant holds at the counterexample
state `c7st`, and a Soccer match is created with `serving = 0`. -/
theorem claim_C7_witness :
    ServingInv c7st
    ∧ (buildMatch initialState [] (str "7") (str "1")
        { name := str "Soccer", folder := str "soccer",
          nameSeparators := [str " v ", str " vs "],
          usesSetScoring := false, hasServing := false,
          hasPointScore := false }).serving = 0 :=
  ⟨claim_C7_amended.1 c7st (Reachable.step _ _ (Reachable.step _ _ Reachable.init)),
   claim_C7_amended.2 initialState [] (str "7") (str "1") _ rfl⟩

-- ── C1: full-dump semantics ───────────────────────────────────────────────

theorem mem_mapKeys_of_mapGet {α : Type} {m : List (Str × α)} {k : Str} {v : α}
    (h : mapGet m k = some v) : k ∈ mapKeys m :=
  (mapGet_isSome_iff m k).mp (by rw [h]; rfl)

theorem exists_mapGet_of_mem_mapKeys {α : Type} {m : List (Str × α)} {k : Str}
    (h : k ∈ mapKeys m) : ∃ v, mapGet m k = some v := by
  have hs := (mapGet_isSome_iff m k).mpr h
  cases hg : mapGet m k
  · rw [hg] at hs
    exact absurd hs (by simp)
  · exact ⟨_, rfl⟩

theorem mem_mapKeys_mapSet_existing {α : Type} (m : List (Str × α)) (a b : Str)
    (v : α) (h : a ∈ mapKeys m) : b ∈ mapKeys (mapSet m a v) ↔ b ∈ mapKeys m := by
  rw [mem_mapKeys_mapSet]
  constructor
  · rintro (rfl | hb)
    · exact h
    · exact hb
  · exact Or.inr

theorem mem_mapValues_iff {α : Type} (l : List (Str × α)) (v : α) :
    v ∈ mapValues l ↔ ∃ k, (k, v) ∈ l := by
  unfold mapValues
  constructor
  · intro h
    obtain ⟨⟨k, w⟩, hp, he⟩ := List.mem_map.mp h
    cases he
    exact ⟨k, hp⟩
  · rintro ⟨k, hk⟩
    exact List.mem_map.mpr ⟨(k, v), hk, rfl⟩

theorem evUpgrade_ctx (s : StateManager) (seg : ParsedSegment) :
    (evUpgrade s seg).currentSportId
        = (dumpUpgrade s.currentSportId s.inSupportedSport seg).1
    ∧ (evUpgrade s seg).inSupportedSport
        = (dumpUpgrade s.currentSportId s.inSupportedSport seg).2 := by
  unfold evUpgrade dumpUpgrade
  repeat' split
  all_goals exact ⟨rfl, rfl⟩

theorem dumpStep_ctx (s : StateManager) (seg : ParsedSegment) :
    (processDumpSeg s seg).currentSportId
        = (dumpCtxStep s.currentSportId s.inSupportedSport seg).1
    ∧ (processDumpSeg s seg).inSupportedSport
        = (dumpCtxStep s.currentSportId s.inSupportedSport seg).2.1 := by
  have hctx := evUpgrade_ctx s seg
  simp only [processDumpSeg, dumpCtxStep]
  rw [← hctx.1, ← hctx.2]
  repeat' split
  all_goals exact ⟨rfl, rfl⟩

theorem mapSet_existing_keys_iff {α : Type} {m : List (Str × α)} {a : Str} {w : α}
    (hget : mapGet m a = some w) (b : Str) (v : α) :
    b ∈ mapKeys (mapSet m a v) ↔ b ∈ mapKeys m :=
  mem_mapKeys_mapSet_existing _ _ _ _ (mem_mapKeys_of_mapGet hget)

theorem dumpStep_keys (s : StateManager) (seg : ParsedSegment) (eid : Str) :
    eid ∈ mapKeys (processDumpSeg s seg).«matches» ↔
      ((dumpCtxStep s.currentSportId s.inSupportedSport seg).2.2 = some eid
        ∨ eid ∈ mapKeys s.«matches») := by
  have hev := evUpgrade_maps s seg
  have hctx := evUpgrade_ctx s seg
  simp only [processDumpSeg, dumpCtxStep]
  rw [← hctx.1, ← hctx.2]
  repeat' split
  all_goals first
    | (simp; done)
    | (rw [hev.1]; done)
    | (rw [hev.1]; simp; done)
    | (rw [hev.1]; simp [mem_mapKeys_mapSet, eq_comm]; try tauto
       done)
    | (rename_i hget
       rw [hev.1] at hget ⊢
       simp [mem_mapKeys_mapSet_existing _ _ _ _ (mem_mapKeys_of_mapGet hget)]
       done)
    | (simp_all
       try exact mapSet_existing_keys_iff (by assumption) _ _
       done)

theorem dumpStep_fixtureMono (s : StateManager) (seg : ParsedSegment) (k : Str)
    (hk : k ∈ mapKeys s.fixtureToEvent) :
    k ∈ mapKeys (processDumpSeg s seg).fixtureToEvent := by
  have hev := evUpgrade_maps s seg
  simp only [processDumpSeg]
  repeat' split
  all_goals first
    | exact hk
    | (rw [hev.2.1]; exact hk)
    | exact (mem_mapKeys_mapSet _ _ _ _).mpr (Or.inr (by rw [hev.2.1]; exact hk))

theorem dumpStep_selectionMono (s : StateManager) (seg : ParsedSegment) (k : Str)
    (hk : k ∈ mapKeys s.selectionInfo) :
    k ∈ mapKeys (processDumpSeg s seg).selectionInfo := by
  have hev := evUpgrade_maps s seg
  simp only [processDumpSeg]
  repeat' split
  all_goals first
    | exact hk
    | (rw [hev.2.2.1]; exact hk)
    | exact (mem_mapKeys_mapSet _ _ _ _).mpr (Or.inr (by rw [hev.2.2.1]; exact hk))

theorem dumpStep_itemMono (s : StateManager) (seg : ParsedSegment) (k : Str)
    (hk : k ∈ mapKeys s.itemToEvent) :
    k ∈ mapKeys (processDumpSeg s seg).itemToEvent := by
  have hev := evUpgrade_maps s seg
  simp only [processDumpSeg]
  repeat' split
  all_goals first
    | exact hk
    | (rw [hev.2.2.2]; exact hk)
    | exact (mem_mapKeys_mapSet _ _ _ _).mpr (Or.inr (by rw [hev.2.2.2]; exact hk))

theorem dumpStep_mki (s : StateManager) (seg : ParsedSegment)
    (hm : MatchKeyInv s) : MatchKeyInv (processDumpSeg s seg) := by
  have hev := evUpgrade_maps s seg
  have hmev : MatchKeyInv (evUpgrade s seg) := by
    intro p hp
    rw [hev.1] at hp
    exact hm p hp
  simp only [processDumpSeg]
  split
  · exact fun p hp => hm p hp
  · split
    · exact hmev
    · split
      · exact fun p hp => hmev p hp
      · split
        · split
          · exact hmev
          · split
            · exact hmev
            · split
              · intro p hp
                rcases mem_mapSet hp with rfl | hpm
                · exact rfl
                · exact hmev p hpm
              · intro p hp
                rcases mem_mapSet hp with rfl | hpm
                · exact rfl
                · exact hmev p hpm
        · split
          · split
            · exact hmev
            · rename_i m hget
              have hx : m.eventId = (evUpgrade s seg).lastEventId :=
                hmev _ (mem_of_mapGet_eq_some hget)
              intro p hp
              rcases mem_mapSet hp with rfl | hpm
              · exact hx
              · exact hmev p hpm
          · split
            · split
              · exact hmev
              · rename_i m hget
                have hx : m.eventId = (evUpgrade s seg).lastEventId :=
                  hmev _ (mem_of_mapGet_eq_some hget)
                split
                · split
                  · intro p hp
                    rcases mem_mapSet hp with rfl | hpm
                    · exact hx
                    · exact hmev p hpm
                  · intro p hp
                    rcases mem_mapSet hp with rfl | hpm
                    · exact hx
                    · exact hmev p hpm
                · intro p hp
                  rcases mem_mapSet hp with rfl | hpm
                  · exact hx
                  · exact hmev p hpm
            · exact hmev

theorem dump_foldl_main (segs : List ParsedSegment) :
    ∀ s : StateManager,
      (∀ eid : Str, eid ∈ mapKeys ((segs.foldl processDumpSeg s).«matches») ↔
        (eid ∈ dumpEventIds s.currentSportId s.inSupportedSport segs
          ∨ eid ∈ mapKeys s.«matches»))
      ∧ (∀ k : Str, k ∈ mapKeys s.fixtureToEvent →
          k ∈ mapKeys ((segs.foldl processDumpSeg s).fixtureToEvent))
      ∧ (∀ k : Str, k ∈ mapKeys s.selectionInfo →
          k ∈ mapKeys ((segs.foldl processDumpSeg s).selectionInfo))
      ∧ (∀ k : Str, k ∈ mapKeys s.itemToEvent →
          k ∈ mapKeys ((segs.foldl processDumpSeg s).itemToEvent))
      ∧ (MatchKeyInv s → MatchKeyInv (segs.foldl processDumpSeg s)) := by
  induction segs with
  | nil =>
    intro s
    exact ⟨fun eid => by simp [dumpEventIds], fun k hk => hk, fun k hk => hk,
      fun k hk => hk, fun h => h⟩
  | cons seg rest ih =>
    intro s
    have hctx := dumpStep_ctx s seg
    have hfold := ih (processDumpSeg s seg)
    have e1 : (seg :: rest).foldl processDumpSeg s
        = rest.foldl processDumpSeg (processDumpSeg s seg) := rfl
    rw [e1]
    refine ⟨fun eid => ?_,
      fun k hk => hfold.2.1 k (dumpStep_fixtureMono s seg k hk),
      fun k hk => hfold.2.2.1 k (dumpStep_selectionMono s seg k hk),
      fun k hk => hfold.2.2.2.1 k (dumpStep_itemMono s seg k hk),
      fun h => hfold.2.2.2.2 (dumpStep_mki s seg h)⟩
    rw [hfold.1 eid, hctx.1, hctx.2, dumpStep_keys s seg eid]
    have e2 : dumpEventIds s.currentSportId s.inSupportedSport (seg :: rest)
        = (match (dumpCtxStep s.currentSportId s.inSupportedSport seg).2.2 with
           | some e => e :: dumpEventIds
               (dumpCtxStep s.currentSportId s.inSupportedSport seg).1
               (dumpCtxStep s.currentSportId s.inSupportedSport seg).2.1 rest
           | none => dumpEventIds
               (dumpCtxStep s.currentSportId s.inSupportedSport seg).1
               (dumpCtxStep s.currentSportId s.inSupportedSport seg).2.1 rest) := rfl
    rw [e2]
    cases hopt : (dumpCtxStep s.currentSportId s.inSupportedSport seg).2.2 with
    | none => simp
    | some e =>
      simp only [List.mem_cons, Option.some.injEq]
      constructor
      · rintro (h1 | rfl | h3)
        · exact Or.inl (Or.inr h1)
        · exact Or.inl (Or.inl rfl)
        · exact Or.inr h3
      · rintro ((rfl | h2) | h3)
        · exact Or.inr (Or.inl rfl)
        · exact Or.inl h2
        · exact Or.inr (Or.inr h3)

/-- **C1.** A full dump whose header marks it global (`InPlay`) wipes the
match table and all three reverse indexes before re-populating: its result
is independent of the prior state, and afterwards `getAllMatches` contains
exactly the events the dump registers (read off by the spec's context
machine `dumpEventIds`).  A detail (non-global) dump clears nothing: every
key previously present in the match table, `fixtureToEvent`,
`selectionInfo` and `itemToEvent` is still present afterwards. -/
theorem claim_C1_full_dump_semantics :
    (∀ (s : StateManager) (segs : List ParsedSegment) (eid : Str),
        (∃ m, m ∈ getAllMatches (processFullDump s segs true) ∧ m.eventId = eid)
          ↔ eid ∈ dumpEventIds [] false segs)
    ∧ (∀ (s : StateManager) (segs : List ParsedSegment),
        processFullDump s segs true = processFullDump initialState segs true)
    ∧ (∀ (s : StateManager) (segs : List ParsedSegment) (k : Str),
        (k ∈ mapKeys s.«matches» →
          k ∈ mapKeys (processFullDump s segs false).«matches»)
        ∧ (k ∈ mapKeys s.fixtureToEvent →
          k ∈ mapKeys (processFullDump s segs false).fixtureToEvent)
        ∧ (k ∈ mapKeys s.selectionInfo →
          k ∈ mapKeys (processFullDump s segs false).selectionInfo)
        ∧ (k ∈ mapKeys s.itemToEvent →
          k ∈ mapKeys (processFullDump s segs false).itemToEvent)) := by
  have hglob : ∀ (s : StateManager) (segs : List ParsedSegment),
      processFullDump s segs true = segs.foldl processDumpSeg initialState :=
    fun s segs => rfl
  refine ⟨?_, ?_, ?_⟩
  · intro s segs eid
    have hmain := dump_foldl_main segs initialState
    have hkeys : ∀ e : Str,
        e ∈ mapKeys ((segs.foldl processDumpSeg initialState).«matches») ↔
          e ∈ dumpEventIds [] false segs := by
      intro e
      rw [hmain.1 e]
      simp [initialState, mapKeys]
    have hmki : MatchKeyInv (segs.foldl processDumpSeg initialState) :=
      hmain.2.2.2.2 (fun p hp => by cases hp)
    rw [hglob s segs]
    constructor
    · rintro ⟨m, hmem, rfl⟩
      obtain ⟨k, hk⟩ := (mem_mapValues_iff _ _).mp hmem
      have hek := hmki _ hk
      rw [← hkeys m.eventId, hek]
      exact List.mem_map_of_mem _ hk
    · intro hin
      obtain ⟨v, hv⟩ := exists_mapGet_of_mem_mapKeys ((hkeys eid).mpr hin)
      exact ⟨v, (mem_mapValues_iff _ _).mpr ⟨eid, mem_of_mapGet_eq_some hv⟩,
        hmki _ (mem_of_mapGet_eq_some hv)⟩
  · intro s segs
    rw [hglob s segs, hglob initialState segs]
  · intro s segs k
    have hdet : processFullDump s segs false
        = segs.foldl processDumpSeg (dumpResetContext s) := rfl
    have hmain := dump_foldl_main segs (dumpResetContext s)
    rw [hdet]
    exact ⟨fun hk => (hmain.1 k).mpr (Or.inr hk), fun hk => hmain.2.1 k hk,
      fun hk => hmain.2.2.1 k hk, fun hk => hmain.2.2.2.1 k hk⟩

/-- Witness for C1: the detail-dump preservation conjunct applied to the S1
state with an empty dump, at each of the four indexes' populated keys. -/
theorem claim_C1_witness :
    str "190321250" ∈ mapKeys (processFullDump st1 [] false).«matches»
    ∧ str "190340113" ∈ mapKeys (processFullDump st1 [] false).fixtureToEvent
    ∧ str "701873422" ∈ mapKeys (processFullDump st1 [] false).selectionInfo
    ∧ str "190321250C13A_32_0" ∈ mapKeys (processFullDump st1 [] false).itemToEvent :=
  ⟨(claim_C1_full_dump_semantics.2.2 st1 [] (str "190321250")).1 (by decide),
   (claim_C1_full_dump_semantics.2.2 st1 [] (str "190340113")).2.1 (by decide),
   (claim_C1_full_dump_semantics.2.2 st1 [] (str "701873422")).2.2.1 (by decide),
   (claim_C1_full_dump_semantics.2.2 st1 []
     (str "190321250C13A_32_0")).2.2.2 (by decide)⟩

end Bet365
